import Mathlib

/-!
Verification of the Sudoku generation/validation engine and board session state
(`sudoku_generator.py`, `board.py`).

Modelling conventions:
* A grid is a `List (List Nat)`, read through `getCell` (out-of-range reads give 0,
  which is unreachable on the in-range accesses the code performs) and written
  through `setCell` (out-of-range writes are no-ops, likewise unreachable).
* Python's global random source is made explicit: the generator state carries
  `shuffles` (one prescribed permutation per `random.shuffle` call; an entry that
  is not a permutation of the shuffled list, or an exhausted stream, leaves the
  list unchanged, which is itself a legal shuffle outcome) and `picks` (one `Nat`
  per `random.randrange` call, reduced mod the bound, exhausting to 0).  Every
  real execution corresponds to some stream and every stream describes a real
  execution, so theorems quantified over streams cover all runs.
* The mutually recursive backtracking loop `fill_remaining` is modelled by the
  step-indexed `fillGo`, structurally recursive on an explicit `fuel` argument
  that bounds the depth of the Python call/candidate chain; `none` means the
  model ran out of steps (the Python recursion is still running), `some (b, g)`
  is the actual Python result `b` with final state `g`.
-/

/-- A Sudoku grid: list of rows of naturals (0 = empty). -/
abbrev Grid : Type := List (List Nat)

/-- Read `board[r][c]`; 0 when out of range (unreachable for the code's accesses). -/
def getCell (b : Grid) (r c : Nat) : Nat :=
  ((List.getD b r []).getD c 0)

/-- Write `board[r][c] = v`; no-op when out of range (unreachable for the code's writes). -/
def setCell (b : Grid) (r c v : Nat) : Grid :=
  List.set b r ((List.getD b r []).set c v)

/-- The grid is an `n × n` matrix. -/
def gridShape (n : Nat) (b : Grid) : Prop :=
  List.length b = n ∧ ∀ row ∈ b, List.length row = n

theorem gridShape_def (n : Nat) (b : Grid) :
    gridShape n b ↔ (List.length b = n ∧ ∀ row ∈ b, List.length row = n) := Iff.rfl

instance (n : Nat) (b : Grid) : Decidable (gridShape n b) :=
  decidable_of_iff _ (gridShape_def n b).symm

theorem getD_as_getElem (l : List (List Nat)) (i : Nat) :
    List.getD l i [] = (l[i]?).getD [] := by
  simp [List.getD_eq_getElem?_getD]

theorem getD_nat_as_getElem (l : List Nat) (i : Nat) :
    List.getD l i 0 = (l[i]?).getD 0 := by
  simp [List.getD_eq_getElem?_getD]

theorem getCell_setCell_ne (b : Grid) (r c r' c' v : Nat) (h : r ≠ r' ∨ c ≠ c') :
    getCell (setCell b r c v) r' c' = getCell b r' c' := by
  unfold getCell setCell
  by_cases hr : r = r'
  · subst hr
    have hc : c ≠ c' := by tauto
    rw [getD_as_getElem, getD_as_getElem]
    show ((List.set b r _)[r]?.getD []).getD c' 0 = _
    rw [List.getElem?_set_self']
    cases hb : b[r]? with
    | none => simp
    | some row => simp [List.getD_eq_getElem?_getD, List.getElem?_set_ne hc]
  · rw [getD_as_getElem, getD_as_getElem]
    show ((List.set b r _)[r']?.getD []).getD c' 0 = _
    rw [List.getElem?_set_ne hr, getD_as_getElem]

theorem getCell_setCell_self (b : Grid) (r c v : Nat) {n : Nat} (hs : gridShape n b)
    (hr : r < n) (hc : c < n) :
    getCell (setCell b r c v) r c = v := by
  obtain ⟨hlen, hrow⟩ := hs
  have hrb : r < List.length b := by omega
  unfold getCell setCell
  rw [getD_as_getElem]
  show ((List.set b r _)[r]?.getD []).getD c 0 = v
  rw [List.getElem?_set_self (by omega)]
  have hmem : b[r] ∈ b := List.getElem_mem hrb
  have hrl : List.length b[r] = n := hrow _ hmem
  have : List.getD b r [] = b[r] := by
    rw [getD_as_getElem, List.getElem?_eq_getElem hrb]; rfl
  rw [this]
  simp [List.getD_eq_getElem?_getD, List.getElem?_set_self (by omega : c < List.length b[r])]

theorem gridShape_setCell {n : Nat} (b : Grid) (r c v : Nat) (hs : gridShape n b) :
    gridShape n (setCell b r c v) := by
  obtain ⟨hlen, hrow⟩ := hs
  rw [gridShape_def]
  refine ⟨by simp [setCell, hlen], ?_⟩
  intro row hmem
  by_cases hrb : r < List.length b
  · rcases List.mem_or_eq_of_mem_set hmem with h | h
    · exact hrow _ h
    · subst h
      rw [List.length_set]
      have hg : List.getD b r [] = b[r] := by
        rw [getD_as_getElem, List.getElem?_eq_getElem hrb]; rfl
      rw [hg]
      exact hrow _ (List.getElem_mem hrb)
  · unfold setCell at hmem
    rw [List.set_eq_of_length_le (by omega)] at hmem
    exact hrow _ hmem

theorem getCell_pair_ne (b : Grid) (r c r' c' v : Nat) (h : (r, c) ≠ (r', c')) :
    getCell (setCell b r c v) r' c' = getCell b r' c' := by
  apply getCell_setCell_ne
  by_cases hr : r = r'
  · subst hr; right; intro hc; exact h (by rw [hc])
  · left; exact hr

/-- The all-zero `n × n` starting grid (`[[0]*n for _ in range(n)]`). -/
def zeroGrid (n : Nat) : Grid :=
  List.replicate n (List.replicate n 0)

theorem gridShape_zeroGrid (n : Nat) : gridShape n (zeroGrid n) := by
  rw [gridShape_def]
  refine ⟨by simp [zeroGrid], ?_⟩
  intro row hmem
  have := List.eq_of_mem_replicate hmem
  simp [this]

theorem getCell_zeroGrid (n r c : Nat) : getCell (zeroGrid n) r c = 0 := by
  unfold getCell zeroGrid
  rw [getD_as_getElem]
  by_cases hr : r < n
  · rw [List.getElem?_replicate_of_lt hr]
    show (List.replicate n 0).getD c 0 = 0
    rw [getD_nat_as_getElem]
    by_cases hc : c < n
    · rw [List.getElem?_replicate_of_lt hc]; rfl
    · rw [List.getElem?_eq_none (by simpa using hc)]; rfl
  · rw [List.getElem?_eq_none (by simpa using hr)]; rfl

/-- `int(n ** 0.5)`: the largest `k ≤ n` with `k * k ≤ n` (kernel-computable,
agreeing with the Python expression on the board sizes in use). -/
def intSqrt (n : Nat) : Nat :=
  (List.range (n + 1)).foldl (fun acc k => if k * k ≤ n then k else acc) 0

/-- State of `class SudokuGenerator`, plus the explicit randomness streams. -/
structure SudokuGenerator where
  row_length : Nat
  removed_cells : Nat
  box_length : Nat
  board : Grid
  solution : Option Grid
  shuffles : List (List Nat)
  picks : List Nat
deriving DecidableEq

namespace SudokuGenerator

/-- `__init__(row_length, removed_cells)`: `box_length = int(row_length ** 0.5)`,
all-zero board, no solution yet. -/
def init (row_length removed_cells : Nat) (shuffles : List (List Nat)) (picks : List Nat) :
    SudokuGenerator :=
  { row_length := row_length
    removed_cells := removed_cells
    box_length := intSqrt row_length
    board := zeroGrid row_length
    solution := none
    shuffles := shuffles
    picks := picks }

/-- `get_board`. -/
def get_board (g : SudokuGenerator) : Grid := g.board

/-- `get_solution`: raises `ValueError` when no solution has been generated. -/
def get_solution (g : SudokuGenerator) : Except String Grid :=
  match g.solution with
  | none => Except.error "Solution requested before board was generated."
  | some s => Except.ok s

/-- One `random.shuffle(l)` call: consume the next prescribed permutation. -/
def shuffleStep (g : SudokuGenerator) (l : List Nat) : List Nat × SudokuGenerator :=
  match g.shuffles with
  | [] => (l, g)
  | p :: rest => (if List.isPerm l p then p else l, { g with shuffles := rest })

/-- One `random.randrange(n)` call: consume the next prescribed pick, mod `n`. -/
def pickStep (g : SudokuGenerator) (n : Nat) : Nat × SudokuGenerator :=
  match g.picks with
  | [] => (0, g)
  | p :: rest => (p % n, { g with picks := rest })

theorem shuffleStep_perm (g : SudokuGenerator) (l : List Nat) :
    List.Perm (shuffleStep g l).1 l := by
  unfold shuffleStep
  match g.shuffles with
  | [] => exact List.Perm.refl l
  | p :: rest =>
    by_cases h : List.isPerm l p
    · simp only [h, if_true]
      exact (List.isPerm_iff.mp h).symm
    · simp only [h, if_false]
      exact List.Perm.refl l

theorem shuffleStep_board (g : SudokuGenerator) (l : List Nat) :
    (shuffleStep g l).2.board = g.board := by
  unfold shuffleStep
  match g.shuffles with
  | [] => rfl
  | p :: rest => rfl

theorem shuffleStep_fields (g : SudokuGenerator) (l : List Nat) :
    (shuffleStep g l).2.row_length = g.row_length ∧
    (shuffleStep g l).2.box_length = g.box_length ∧
    (shuffleStep g l).2.removed_cells = g.removed_cells ∧
    (shuffleStep g l).2.solution = g.solution := by
  unfold shuffleStep
  match g.shuffles with
  | [] => exact ⟨rfl, rfl, rfl, rfl⟩
  | p :: rest => exact ⟨rfl, rfl, rfl, rfl⟩

/-- `valid_in_row`: `num not in self.board[row]`. -/
def valid_in_row (g : SudokuGenerator) (row num : Nat) : Bool :=
  ! List.contains (List.getD g.board row []) num

/-- `valid_in_col`: `all(self.board[r][col] != num for r in range(self.row_length))`. -/
def valid_in_col (g : SudokuGenerator) (col num : Nat) : Bool :=
  List.all (List.range g.row_length) fun r => getCell g.board r col ≠ num

/-- `valid_in_box`. -/
def valid_in_box (g : SudokuGenerator) (row_start col_start num : Nat) : Bool :=
  List.all (List.range g.box_length) fun r =>
    List.all (List.range g.box_length) fun c =>
      getCell g.board (row_start + r) (col_start + c) ≠ num

/-- `is_valid(row, col, num)`. -/
def is_valid (g : SudokuGenerator) (row col num : Nat) : Bool :=
  valid_in_row g row num && valid_in_col g col num &&
    valid_in_box g (row - row % g.box_length) (col - col % g.box_length) num

/-- `_unused_in_box`. -/
def unused_in_box (g : SudokuGenerator) (row_start col_start : Nat) : List Nat :=
  let used := List.filter (fun v => v ≠ 0)
    (List.flatten ((List.range g.box_length).map fun r =>
      (List.range g.box_length).map fun c => getCell g.board (row_start + r) (col_start + c)))
  List.filter (fun num => ! List.contains used num) (List.range' 1 g.row_length)

/-- One iteration of the `fill_box` double loop: fill the cell from the
shuffled values if it is empty, advancing the value index. -/
def fillBoxStep (vs : List Nat) (acc : Grid × Nat) (p : Nat × Nat) : Grid × Nat :=
  if getCell acc.1 p.1 p.2 = 0 then
    (setCell acc.1 p.1 p.2 (List.getD vs acc.2 0), acc.2 + 1)
  else acc

/-- `fill_box`: shuffle the unused values, then write them into the empty cells
of the box in row-major order. -/
def fill_box (g : SudokuGenerator) (row_start col_start : Nat) : SudokuGenerator :=
  let s := shuffleStep g (unused_in_box g row_start col_start)
  let values := s.1
  let g1 := s.2
  let cells := List.flatten ((List.range g1.box_length).map fun r =>
    (List.range g1.box_length).map fun c => (row_start + r, col_start + c))
  let fin := cells.foldl (fillBoxStep values) (g1.board, 0)
  { g1 with board := fin.1 }

/-- `range(0, row_length, box_length)`. -/
def diagStarts (n bl : Nat) : List Nat :=
  List.range' 0 ((n + bl - 1) / bl) bl

/-- `fill_diagonal`. -/
def fill_diagonal (g : SudokuGenerator) : SudokuGenerator :=
  (diagStarts g.row_length g.box_length).foldl (fun acc s => fill_box acc s s) g

/-- The row/col adjustment and box-skipping prologue of `fill_remaining`:
`none` means one of its `return True` exits fired, `some (r, c)` is the cell the
candidate loop then targets. -/
def adjust (n bl row col : Nat) : Option (Nat × Nat) :=
  let p := if n ≤ col ∧ row < n - 1 then (row + 1, 0) else (row, col)
  let row := p.1
  let col := p.2
  if n ≤ row ∧ n ≤ col then none
  else if row < bl then
    if col < bl then some (row, bl) else some (row, col)
  else if row < n - bl then
    if col = row / bl * bl then some (row, col + bl) else some (row, col)
  else
    if col = n - bl then
      if n ≤ row + 1 then none else some (row + 1, 0)
    else some (row, col)

/-- `fill_remaining`, step-indexed.  The last argument is `none` on entry to a
recursive call (run the prologue, shuffle a fresh candidate list) and
`some nums` while iterating the candidate loop at the current target cell. -/
def fillGo : Nat → SudokuGenerator → Nat → Nat → Option (List Nat) →
    Option (Bool × SudokuGenerator)
  | 0, _, _, _, _ => none
  | fuel + 1, g, row, col, none =>
    match adjust g.row_length g.box_length row col with
    | none => some (true, g)
    | some (r, c) =>
      let s := shuffleStep g (List.range' 1 g.row_length)
      fillGo fuel s.2 r c (some s.1)
  | _ + 1, g, _, _, some [] => some (false, g)
  | fuel + 1, g, r, c, some (num :: rest) =>
    if is_valid g r c num then
      match fillGo fuel { g with board := setCell g.board r c num } r (c + 1) none with
      | none => none
      | some (true, g2) => some (true, g2)
      | some (false, g2) =>
        fillGo fuel { g2 with board := setCell g2.board r c 0 } r c (some rest)
    else fillGo fuel g r c (some rest)

/-- `fill_remaining(row, col)` from a fresh entry. -/
def fill_remaining (fuel : Nat) (g : SudokuGenerator) (row col : Nat) :
    Option (Bool × SudokuGenerator) :=
  fillGo fuel g row col none

/-- `fill_values`: fill the diagonal, run `fill_remaining(0, box_length)`
(discarding its result, as the code does), record `solution` as a copy of the
board. -/
def fill_values (fuel : Nat) (g : SudokuGenerator) : Option SudokuGenerator :=
  let g1 := fill_diagonal g
  match fillGo fuel g1 0 g1.box_length none with
  | none => none
  | some (_, g2) => some { g2 with solution := some g2.board }

/-- `remove_cells`, step-indexed on the number of loop iterations. -/
def removeGo : Nat → SudokuGenerator → Nat → Option SudokuGenerator
  | 0, g, removed => if g.removed_cells ≤ removed then some g else none
  | fuel + 1, g, removed =>
    if g.removed_cells ≤ removed then some g
    else
      let s1 := pickStep g g.row_length
      let s2 := pickStep s1.2 s1.2.row_length
      let row := s1.1
      let col := s2.1
      let g2 := s2.2
      if getCell g2.board row col ≠ 0 then
        removeGo fuel { g2 with board := setCell g2.board row col 0 } (removed + 1)
      else removeGo fuel g2 removed

/-- `remove_cells()`. -/
def remove_cells (fuel : Nat) (g : SudokuGenerator) : Option SudokuGenerator :=
  removeGo fuel g 0

end SudokuGenerator

/-- `DIFFICULTY_TO_REMOVED` table. -/
def DIFFICULTY_TO_REMOVED : List (String × Nat) :=
  [("easy", 30), ("medium", 40), ("hard", 50)]

/-- Python `dict.get(key, default)` over an association list. -/
def dictGet (table : List (String × Nat)) (key : String) (dflt : Nat) : Nat :=
  match List.find? (fun p => p.1 = key) table with
  | some p => p.2
  | none => dflt

/-- Python `str.lower()` (agrees with the Python one on ASCII strings). -/
def strLower (s : String) : String := String.mk (s.data.map Char.toLower)

/-- The removal count chosen by `Board.__init__`:
`removed = DIFFICULTY_TO_REMOVED.get(difficulty.lower(), 40)`. -/
def removedForDifficulty (difficulty : String) : Nat :=
  dictGet DIFFICULTY_TO_REMOVED (strLower difficulty) 40

/-- State of `class Board` (session state; drawing data is presentation glue and
is not part of the model).  `cells_value`/`cells_sketched`/`cells_selected`
model the `value`, `sketched_value` and `selected` attributes of the `Cell`
matrix; `board` is `self.board`, the working mirror of the cell values. -/
structure Board where
  original_board : Grid
  board : Grid
  cells_value : Grid
  cells_sketched : Grid
  cells_selected : List (List Bool)
  selected : Option (Nat × Nat)
  solution : Grid
deriving DecidableEq

namespace Board

/-- `_clear_selection`. -/
def clear_selection (s : Board) : Board :=
  { s with cells_selected := s.cells_selected.map fun row => row.map fun _ => false }

/-- `clear()`: on the selected, unlocked cell set the value, the sketch and the
working mirror to 0. -/
def clear (s : Board) : Board :=
  match s.selected with
  | none => s
  | some (row, col) =>
    if getCell s.original_board row col = 0 then
      { s with
        cells_value := setCell s.cells_value row col 0
        cells_sketched := setCell s.cells_sketched row col 0
        board := setCell s.board row col 0 }
    else s

/-- `sketch(value)`. -/
def sketch (s : Board) (value : Nat) : Board :=
  match s.selected with
  | none => s
  | some (row, col) =>
    if getCell s.original_board row col ≠ 0 then s
    else { s with cells_sketched := setCell s.cells_sketched row col value }

/-- `place_number(value)`: `Cell.set_cell_value` clears the sketch only for a
truthy (nonzero) value. -/
def place_number (s : Board) (value : Nat) : Board :=
  match s.selected with
  | none => s
  | some (row, col) =>
    if getCell s.original_board row col ≠ 0 then s
    else
      { s with
        cells_value := setCell s.cells_value row col value
        cells_sketched :=
          if value ≠ 0 then setCell s.cells_sketched row col 0 else s.cells_sketched
        board := setCell s.board row col value }

/-- `commit_sketched_value()`. -/
def commit_sketched_value (s : Board) : Board :=
  match s.selected with
  | none => s
  | some (row, col) =>
    if getCell s.original_board row col ≠ 0 then s
    else
      let sk := getCell s.cells_sketched row col
      if sk ≠ 0 then place_number s sk else s

/-- The 81 cell coordinates `(r, c)` for `r, c in range(9)`, row-major. -/
def pairs9 : List (Nat × Nat) :=
  List.flatten ((List.range 9).map fun r => (List.range 9).map fun c => (r, c))

/-- One iteration of the `reset_to_original` double loop at cell `p`, acting on
the (cell values, sketches, working board) triple: `set_cell_value(original)`,
`set_sketched_value(0)`, `board[r][c] = original[r][c]`. -/
def resetStep (src : Grid) (t : Grid × Grid × Grid) (p : Nat × Nat) : Grid × Grid × Grid :=
  (setCell t.1 p.1 p.2 (getCell src p.1 p.2),
   setCell t.2.1 p.1 p.2 0,
   setCell t.2.2 p.1 p.2 (getCell src p.1 p.2))

/-- `reset_to_original()`. -/
def reset_to_original (s : Board) : Board :=
  let t := pairs9.foldl (resetStep s.original_board)
    (s.cells_value, s.cells_sketched, s.board)
  clear_selection
    { s with
      cells_value := t.1
      cells_sketched := t.2.1
      board := t.2.2
      selected := none }

/-- `is_full()`: every `cell.value` in the cell matrix is nonzero. -/
def is_full (s : Board) : Bool :=
  s.cells_value.all fun row => row.all fun v => v ≠ 0

/-- `update_board()`. -/
def update_board (s : Board) : Board :=
  { s with board := s.cells_value.map fun row => row.map fun v => v }

/-- `check_board()`: refresh the working mirror, then compare it with the
solution cell by cell (the early `return False` makes it an `all` check). -/
def check_board (s : Board) : Bool × Board :=
  let s1 := update_board s
  ((List.range 9).all fun r =>
    (List.range 9).all fun c => getCell s1.board r c = getCell s1.solution r c, s1)

end Board

/-- A known valid complete 9x9 Sudoku grid, used to drive concrete runs. -/
def SGrid : Grid :=
  [[1,2,3,4,5,6,7,8,9],
   [4,5,6,7,8,9,1,2,3],
   [7,8,9,1,2,3,4,5,6],
   [2,3,4,5,6,7,8,9,1],
   [5,6,7,8,9,1,2,3,4],
   [8,9,1,2,3,4,5,6,7],
   [3,4,5,6,7,8,9,1,2],
   [6,7,8,9,1,2,3,4,5],
   [9,1,2,3,4,5,6,7,8]]

/-- The 54 non-diagonal-box cells in the order `fill_remaining(0, 3)` visits them. -/
def targetsList : List (Nat × Nat) :=
  (List.flatten ((List.range 3).map fun r => (List.range' 3 6).map fun c => (r, c))) ++
  (List.flatten ((List.range' 3 3).map fun r =>
    ((List.range 3).map fun c => (r, c)) ++ (List.range' 6 3).map fun c => (r, c))) ++
  (List.flatten ((List.range' 6 3).map fun r => (List.range 6).map fun c => (r, c)))

/-- A shuffle stream that makes the generator reproduce `SGrid`: the three
diagonal boxes of `SGrid`, then, for each visited cell, a permutation of 1..9
fronted by `SGrid`'s value there. -/
def wStream : List (List Nat) :=
  [[1,2,3,4,5,6,7,8,9], [5,6,7,8,9,1,2,3,4], [9,1,2,3,4,5,6,7,8]] ++
  targetsList.map fun p =>
    getCell SGrid p.1 p.2 :: (List.range' 1 9).filter fun v => v ≠ getCell SGrid p.1 p.2

/-- The generator state after the successful crafted run: board `SGrid`, both
streams fully consumed, solution not yet recorded. -/
def wGenFinal : SudokuGenerator :=
  { row_length := 9, removed_cells := 40, box_length := 3,
    board := SGrid, solution := none, shuffles := [], picks := [] }

/-- Concrete small session state used by witnesses: cell (0, 0) is a locked given. -/
def sWit : Board :=
  { original_board := [[5, 0], [0, 0]]
    board := [[5, 0], [0, 0]]
    cells_value := [[5, 0], [0, 0]]
    cells_sketched := [[0, 0], [0, 0]]
    cells_selected := [[false, false], [false, false]]
    selected := some (0, 0)
    solution := [[5, 1], [1, 1]] }

/-- `sWit` with nothing selected. -/
def sWitNone : Board :=
  { sWit with selected := none }

/-- Claim C4: for a session cell that is a locked given (`original[r][c] != 0`),
`place_number` and `clear` change neither the working value at `(r, c)` (in
`self.board` or in the cell matrix) nor the original grid, whatever the value
argument and whatever cell is selected. -/
theorem claim_C4 (s : Board) (r c v : Nat) (hlock : getCell s.original_board r c ≠ 0) :
    getCell (Board.place_number s v).board r c = getCell s.board r c ∧
    getCell (Board.place_number s v).cells_value r c = getCell s.cells_value r c ∧
    (Board.place_number s v).original_board = s.original_board ∧
    getCell (Board.clear s).board r c = getCell s.board r c ∧
    getCell (Board.clear s).cells_value r c = getCell s.cells_value r c ∧
    (Board.clear s).original_board = s.original_board := by
  cases hsel : s.selected with
  | none => simp [Board.place_number, Board.clear, hsel]
  | some p =>
    obtain ⟨r', c'⟩ := p
    by_cases hl : getCell s.original_board r' c' = 0
    · have hne : (r', c') ≠ (r, c) := by
        intro he
        have h1 : r' = r := congrArg Prod.fst he
        have h2 : c' = c := congrArg Prod.snd he
        rw [h1, h2] at hl
        exact hlock hl
      have key : ∀ (X : Grid) (w : Nat), getCell (setCell X r' c' w) r c = getCell X r c :=
        fun X w => getCell_pair_ne X r' c' r c w hne
      simp [Board.place_number, Board.clear, hsel, hl, key]
    · simp [Board.place_number, Board.clear, hsel, hl]

/-- Witness for C4 at a concrete session. -/
theorem claim_C4_witness :
    getCell sWit.original_board 0 0 ≠ 0 ∧
    (getCell (Board.place_number sWit 3).board 0 0 = getCell sWit.board 0 0 ∧
     getCell (Board.place_number sWit 3).cells_value 0 0 = getCell sWit.cells_value 0 0 ∧
     (Board.place_number sWit 3).original_board = sWit.original_board ∧
     getCell (Board.clear sWit).board 0 0 = getCell sWit.board 0 0 ∧
     getCell (Board.clear sWit).cells_value 0 0 = getCell sWit.cells_value 0 0 ∧
     (Board.clear sWit).original_board = sWit.original_board) :=
  ⟨by decide, claim_C4 sWit 0 0 3 (by decide)⟩

/-- Claim C10: with no cell selected, `clear`, `sketch`, `place_number` and
`commit_sketched_value` return immediately and leave the whole session state
unchanged. -/
theorem claim_C10 (s : Board) (v : Nat) (h : s.selected = none) :
    Board.clear s = s ∧ Board.sketch s v = s ∧ Board.place_number s v = s ∧
    Board.commit_sketched_value s = s := by
  simp [Board.clear, Board.sketch, Board.place_number, Board.commit_sketched_value, h]

/-- Witness for C10 at a concrete session. -/
theorem claim_C10_witness :
    sWitNone.selected = none ∧
    (Board.clear sWitNone = sWitNone ∧ Board.sketch sWitNone 5 = sWitNone ∧
     Board.place_number sWitNone 5 = sWitNone ∧
     Board.commit_sketched_value sWitNone = sWitNone) :=
  ⟨rfl, claim_C10 sWitNone 5 rfl⟩

theorem pickStep_solution (g : SudokuGenerator) (n : Nat) :
    (SudokuGenerator.pickStep g n).2.solution = g.solution := by
  unfold SudokuGenerator.pickStep
  match g.picks with
  | [] => rfl
  | p :: rest => rfl

theorem removeGo_solution :
    ∀ (fuel : Nat) (g : SudokuGenerator) (removed : Nat) (g' : SudokuGenerator),
      SudokuGenerator.removeGo fuel g removed = some g' → g'.solution = g.solution := by
  intro fuel
  induction fuel with
  | zero =>
    intro g removed g' h
    unfold SudokuGenerator.removeGo at h
    split at h
    · injection h with h; rw [← h]
    · cases h
  | succ fuel ih =>
    intro g removed g' h
    unfold SudokuGenerator.removeGo at h
    split at h
    · injection h with h; rw [← h]
    · dsimp only at h
      split at h
      · have := ih _ _ _ h
        rw [this]
        show (SudokuGenerator.pickStep (SudokuGenerator.pickStep g _).2 _).2.solution = _
        rw [pickStep_solution, pickStep_solution]
      · have := ih _ _ _ h
        rw [this]
        rw [pickStep_solution, pickStep_solution]

/-- Claim C9: the recorded solution is never altered afterwards: `remove_cells`
leaves the generator's `solution` field untouched, and every session edit
(`place_number`, `clear`, `sketch`, `commit_sketched_value`,
`reset_to_original`) leaves the session's `solution` grid untouched. -/
theorem claim_C9 :
    (∀ (fuel : Nat) (g : SudokuGenerator) (g' : SudokuGenerator),
      SudokuGenerator.remove_cells fuel g = some g' → g'.solution = g.solution) ∧
    (∀ (s : Board) (v : Nat),
      (Board.place_number s v).solution = s.solution ∧
      (Board.clear s).solution = s.solution ∧
      (Board.sketch s v).solution = s.solution ∧
      (Board.commit_sketched_value s).solution = s.solution ∧
      (Board.reset_to_original s).solution = s.solution) := by
  constructor
  · intro fuel g g' h
    exact removeGo_solution fuel g 0 g' h
  · intro s v
    have hpn : ∀ (w : Nat), (Board.place_number s w).solution = s.solution := by
      intro w
      cases hsel : s.selected with
      | none => simp [Board.place_number, hsel]
      | some p =>
        obtain ⟨r', c'⟩ := p
        by_cases hl : getCell s.original_board r' c' = 0 <;>
          simp [Board.place_number, hsel, hl]
    refine ⟨hpn v, ?_, ?_, ?_, ?_⟩
    · cases hsel : s.selected with
      | none => simp [Board.clear, hsel]
      | some p =>
        obtain ⟨r', c'⟩ := p
        by_cases hl : getCell s.original_board r' c' = 0 <;> simp [Board.clear, hsel, hl]
    · cases hsel : s.selected with
      | none => simp [Board.sketch, hsel]
      | some p =>
        obtain ⟨r', c'⟩ := p
        by_cases hl : getCell s.original_board r' c' = 0 <;> simp [Board.sketch, hsel, hl]
    · cases hsel : s.selected with
      | none => simp [Board.commit_sketched_value, hsel]
      | some p =>
        obtain ⟨r', c'⟩ := p
        by_cases hl : getCell s.original_board r' c' = 0
        · by_cases hsk : getCell s.cells_sketched r' c' = 0 <;>
            simp [Board.commit_sketched_value, hsel, hl, hsk, hpn]
        · simp [Board.commit_sketched_value, hsel, hl]
    · simp only [Board.reset_to_original, Board.clear_selection]

/-- A generator state with removal count 0, so `remove_cells` finishes at once. -/
def gRem0 : SudokuGenerator :=
  { wGenFinal with removed_cells := 0 }

/-- Witness for C9 at concrete inputs (removal with count 0 finishes at once). -/
theorem claim_C9_witness :
    gRem0.solution = gRem0.solution ∧
    (Board.place_number sWit 3).solution = sWit.solution :=
  ⟨claim_C9.1 1 gRem0 gRem0 (by decide), (claim_C9.2 sWit 3).1⟩

/-- Claim C7: `get_solution` before any `fill_values` (i.e. on a fresh
generator) raises the distinct `ValueError`, never returning a grid; after a
completed `fill_values` it returns the recorded solution (the board as it stood
when it was recorded). -/
theorem claim_C7 :
    (∀ (n k : Nat) (ss : List (List Nat)) (ps : List Nat),
      SudokuGenerator.get_solution (SudokuGenerator.init n k ss ps) =
        Except.error "Solution requested before board was generated.") ∧
    (∀ (fuel : Nat) (g g' : SudokuGenerator),
      SudokuGenerator.fill_values fuel g = some g' →
        g'.solution = some g'.board ∧
        SudokuGenerator.get_solution g' = Except.ok g'.board) := by
  constructor
  · intro n k ss ps
    rfl
  · intro fuel g g' h
    unfold SudokuGenerator.fill_values at h
    dsimp only at h
    split at h
    · cases h
    · injection h with h
      rw [← h]
      exact ⟨rfl, rfl⟩

/-- The generator state produced by `fill_values` on a fresh size-1 generator. -/
def gOne : SudokuGenerator :=
  { row_length := 1, removed_cells := 0, box_length := 1,
    board := [[1]], solution := some [[1]], shuffles := [], picks := [] }

/-- Witness for C7: the fresh-generator error at concrete arguments, and the
post-`fill_values` success on a concrete completed run. -/
theorem claim_C7_witness :
    SudokuGenerator.get_solution (SudokuGenerator.init 9 40 [] []) =
      Except.error "Solution requested before board was generated." ∧
    SudokuGenerator.fill_values 10 (SudokuGenerator.init 1 0 [] []) = some gOne ∧
    (gOne.solution = some gOne.board ∧
     SudokuGenerator.get_solution gOne = Except.ok gOne.board) :=
  ⟨claim_C7.1 9 40 [] [], by decide,
   claim_C7.2 10 (SudokuGenerator.init 1 0 [] []) gOne (by decide)⟩

/-- Claim C8 counterexample: the difficulty string `"EASY"` is none of the three
listed strings, yet the removal count used for it is 30, not the claimed
default 40 (the constructor lowercases the difficulty first). -/
theorem claim_C8_counterexample :
    removedForDifficulty "EASY" = 30 ∧
    "EASY" ≠ "easy" ∧ "EASY" ≠ "medium" ∧ "EASY" ≠ "hard" ∧ (30 : Nat) ≠ 40 := by
  refine ⟨?_, by decide, by decide, by decide, by decide⟩
  decide

/-- Claim C8 (amended): the removal count is determined by the lowercased
difficulty string: 30 when it lowercases to `"easy"`, 40 for `"medium"`,
50 for `"hard"`, and 40 for every other string, with no error. -/
theorem claim_C8_amended (d : String) :
    removedForDifficulty d =
      (if strLower d = "easy" then 30
       else if strLower d = "medium" then 40
       else if strLower d = "hard" then 50
       else 40) := by
  unfold removedForDifficulty dictGet DIFFICULTY_TO_REMOVED
  simp only [List.find?]
  by_cases h1 : strLower d = "easy"
  · rw [decide_eq_true h1.symm]
    simp [h1]
  · rw [decide_eq_false fun he => h1 he.symm]
    by_cases h2 : strLower d = "medium"
    · rw [decide_eq_true h2.symm]
      simp [h1, h2]
    · rw [decide_eq_false fun he => h2 he.symm]
      by_cases h3 : strLower d = "hard"
      · rw [decide_eq_true h3.symm]
        simp [h1, h2, h3]
      · rw [decide_eq_false fun he => h3 he.symm]
        simp [h1, h2, h3]

theorem getCell_mem_row {n : Nat} (b : Grid) (hs : gridShape n b) {r c : Nat}
    (hr : r < n) (hc : c < n) :
    ∃ row ∈ b, getCell b r c ∈ row := by
  obtain ⟨hlen, hrow⟩ := hs
  have hrb : r < List.length b := by omega
  refine ⟨b[r], List.getElem_mem hrb, ?_⟩
  have hl : List.getD b r [] = b[r] := by
    rw [getD_as_getElem, List.getElem?_eq_getElem hrb]; rfl
  have hcl : c < List.length b[r] := by
    rw [hrow _ (List.getElem_mem hrb)]; omega
  unfold getCell
  rw [hl, getD_nat_as_getElem, List.getElem?_eq_getElem hcl]
  exact List.getElem_mem hcl

theorem exists_getCell_of_mem {n : Nat} (b : Grid) (hs : gridShape n b) {row : List Nat}
    {v : Nat} (hrowm : row ∈ b) (hv : v ∈ row) :
    ∃ r c, r < n ∧ c < n ∧ getCell b r c = v := by
  obtain ⟨hlen, hrow⟩ := hs
  obtain ⟨r, hr, hre⟩ := List.getElem_of_mem hrowm
  obtain ⟨c, hc, hce⟩ := List.getElem_of_mem hv
  have hrc : c < List.length b[r] := by rw [hre]; omega
  refine ⟨r, c, by omega, ?_, ?_⟩
  · have hrn := hrow row hrowm
    omega
  · unfold getCell
    have hl : List.getD b r [] = b[r] := by
      rw [getD_as_getElem, List.getElem?_eq_getElem hr]; rfl
    rw [hl, getD_nat_as_getElem, List.getElem?_eq_getElem hrc]
    show b[r][c] = v
    have : b[r][c] = row[c] := by congr 1
    rw [this, hce]

theorem is_full_iff (s : Board) (hs : gridShape 9 s.cells_value) :
    Board.is_full s = true ↔ ∀ r c, r < 9 → c < 9 → getCell s.cells_value r c ≠ 0 := by
  unfold Board.is_full
  rw [List.all_eq_true]
  constructor
  · intro h r c hr hc
    obtain ⟨row, hrm, hvm⟩ := getCell_mem_row s.cells_value hs hr hc
    have h1 := h row hrm
    rw [List.all_eq_true] at h1
    have h2 := h1 _ hvm
    simpa using h2
  · intro h row hrm
    rw [List.all_eq_true]
    intro v hv
    obtain ⟨r, c, hr, hc, he⟩ := exists_getCell_of_mem s.cells_value hs hrm hv
    have := h r c hr hc
    rw [he] at this
    simpa using this

theorem update_board_solution (s : Board) :
    (Board.update_board s).solution = s.solution := rfl

theorem update_board_board (s : Board) : (Board.update_board s).board = s.cells_value := by
  show List.map _ s.cells_value = s.cells_value
  have : ∀ row : List Nat, List.map (fun v => v) row = row := List.map_id'
  simp only [this, List.map_id']

/-- Claim C5: on a session whose solution grid has no zero cells (as every
generated solution has), `check_board` returns false whenever the working grid
is incomplete (`is_full` false), never failing; and it returns true exactly when
the working grid matches the solution cell by cell. -/
theorem claim_C5 (s : Board) (hs : gridShape 9 s.cells_value)
    (hsol : ∀ r ∈ List.range 9, ∀ c ∈ List.range 9, getCell s.solution r c ≠ 0) :
    (Board.is_full s = false → (Board.check_board s).1 = false) ∧
    ((Board.check_board s).1 = true ↔
      ∀ r c, r < 9 → c < 9 → getCell s.cells_value r c = getCell s.solution r c) := by
  have hcb : (Board.check_board s).1 = ((List.range 9).all fun r =>
      (List.range 9).all fun c =>
        decide (getCell s.cells_value r c = getCell s.solution r c)) := by
    unfold Board.check_board
    dsimp only
    rw [update_board_board, update_board_solution]
  have hiff : (Board.check_board s).1 = true ↔
      ∀ r c, r < 9 → c < 9 → getCell s.cells_value r c = getCell s.solution r c := by
    rw [hcb, List.all_eq_true]
    constructor
    · intro h r c hr hc
      have h1 := h r (List.mem_range.mpr hr)
      rw [List.all_eq_true] at h1
      have h2 := h1 c (List.mem_range.mpr hc)
      simpa using h2
    · intro h r hrm
      rw [List.all_eq_true]
      intro c hcm
      have := h r c (List.mem_range.mp hrm) (List.mem_range.mp hcm)
      simpa using this
  refine ⟨?_, hiff⟩
  intro hfull
  by_contra hne
  have htrue : (Board.check_board s).1 = true := by
    cases hq : (Board.check_board s).1 with
    | false => exact absurd hq hne
    | true => rfl
  have hall := hiff.mp htrue
  have hf : Board.is_full s = true := by
    rw [is_full_iff s hs]
    intro r c hr hc
    rw [hall r c hr hc]
    exact hsol r (List.mem_range.mpr hr) c (List.mem_range.mpr hc)
  rw [hf] at hfull
  cases hfull

/-- A concrete session: empty working grid, valid complete solution. -/
def sWit9 : Board :=
  { original_board := zeroGrid 9
    board := zeroGrid 9
    cells_value := zeroGrid 9
    cells_sketched := zeroGrid 9
    cells_selected := []
    selected := none
    solution := SGrid }

/-- Witness for C5 at the concrete session. -/
theorem claim_C5_witness :
    (Board.is_full sWit9 = false → (Board.check_board sWit9).1 = false) ∧
    ((Board.check_board sWit9).1 = true ↔
      ∀ r c, r < 9 → c < 9 → getCell sWit9.cells_value r c = getCell sWit9.solution r c) :=
  claim_C5 sWit9 (gridShape_zeroGrid 9) (by decide)

theorem mem_pairs9 (r c : Nat) : (r, c) ∈ Board.pairs9 ↔ r < 9 ∧ c < 9 := by
  constructor
  · intro hm
    unfold Board.pairs9 at hm
    rw [List.mem_flatten] at hm
    obtain ⟨l, hl, hmem⟩ := hm
    rw [List.mem_map] at hl
    obtain ⟨a, ha, rfl⟩ := hl
    rw [List.mem_map] at hmem
    obtain ⟨b, hb, hab⟩ := hmem
    have h1 : a = r := congrArg Prod.fst hab
    have h2 : b = c := congrArg Prod.snd hab
    subst h1
    subst h2
    exact ⟨List.mem_range.mp ha, List.mem_range.mp hb⟩
  · rintro ⟨hr, hc⟩
    unfold Board.pairs9
    rw [List.mem_flatten]
    refine ⟨(List.range 9).map fun c => (r, c), ?_, ?_⟩
    · rw [List.mem_map]
      exact ⟨r, List.mem_range.mpr hr, rfl⟩
    · rw [List.mem_map]
      exact ⟨c, List.mem_range.mpr hc, rfl⟩

theorem resetStep_foldl (src : Grid) :
    ∀ (ps : List (Nat × Nat)) (t : Grid × Grid × Grid),
      (∀ p ∈ ps, p.1 < 9 ∧ p.2 < 9) →
      gridShape 9 t.1 → gridShape 9 t.2.1 → gridShape 9 t.2.2 →
      gridShape 9 (ps.foldl (Board.resetStep src) t).1 ∧
      gridShape 9 (ps.foldl (Board.resetStep src) t).2.1 ∧
      gridShape 9 (ps.foldl (Board.resetStep src) t).2.2 ∧
      (∀ r c, (r, c) ∈ ps →
        getCell (ps.foldl (Board.resetStep src) t).1 r c = getCell src r c ∧
        getCell (ps.foldl (Board.resetStep src) t).2.1 r c = 0 ∧
        getCell (ps.foldl (Board.resetStep src) t).2.2 r c = getCell src r c) ∧
      (∀ r c, ¬ (r, c) ∈ ps →
        getCell (ps.foldl (Board.resetStep src) t).1 r c = getCell t.1 r c ∧
        getCell (ps.foldl (Board.resetStep src) t).2.1 r c = getCell t.2.1 r c ∧
        getCell (ps.foldl (Board.resetStep src) t).2.2 r c = getCell t.2.2 r c) := by
  intro ps
  induction ps with
  | nil =>
    intro t hb h1 h2 h3
    refine ⟨h1, h2, h3, ?_, ?_⟩
    · intro r c hmem
      cases hmem
    · intro r c _
      exact ⟨rfl, rfl, rfl⟩
  | cons q rest ih =>
    intro t hb h1 h2 h3
    obtain ⟨qr, qc⟩ := q
    have hq := hb (qr, qc) (List.mem_cons_self _ _)
    have h1' : gridShape 9 (Board.resetStep src t (qr, qc)).1 :=
      gridShape_setCell _ _ _ _ h1
    have h2' : gridShape 9 (Board.resetStep src t (qr, qc)).2.1 :=
      gridShape_setCell _ _ _ _ h2
    have h3' : gridShape 9 (Board.resetStep src t (qr, qc)).2.2 :=
      gridShape_setCell _ _ _ _ h3
    have hb' : ∀ p ∈ rest, p.1 < 9 ∧ p.2 < 9 := fun p hp => hb p (List.mem_cons_of_mem _ hp)
    obtain ⟨g1, g2, g3, hin, hout⟩ := ih (Board.resetStep src t (qr, qc)) hb' h1' h2' h3'
    rw [List.foldl_cons]
    refine ⟨g1, g2, g3, ?_, ?_⟩
    · intro r c hmem
      by_cases hrest : (r, c) ∈ rest
      · exact hin r c hrest
      · have heq : (r, c) = (qr, qc) := by
          rcases List.mem_cons.mp hmem with h | h
          · exact h
          · exact absurd h hrest
        have hr1 : r = qr := congrArg Prod.fst heq
        have hc1 : c = qc := congrArg Prod.snd heq
        subst hr1; subst hc1
        have hun := hout r c hrest
        refine ⟨?_, ?_, ?_⟩
        · rw [hun.1]
          exact getCell_setCell_self _ _ _ _ h1 hq.1 hq.2
        · rw [hun.2.1]
          exact getCell_setCell_self _ _ _ _ h2 hq.1 hq.2
        · rw [hun.2.2]
          exact getCell_setCell_self _ _ _ _ h3 hq.1 hq.2
    · intro r c hmem
      have hrest : ¬ (r, c) ∈ rest := fun h => hmem (List.mem_cons_of_mem _ h)
      have hne : ((qr : Nat), (qc : Nat)) ≠ (r, c) := by
        intro he
        exact hmem (he ▸ List.mem_cons_self _ _)
      have hun := hout r c hrest
      refine ⟨?_, ?_, ?_⟩
      · rw [hun.1]
        exact getCell_pair_ne _ _ _ _ _ _ hne
      · rw [hun.2.1]
        exact getCell_pair_ne _ _ _ _ _ _ hne
      · rw [hun.2.2]
        exact getCell_pair_ne _ _ _ _ _ _ hne

/-- Claim C6: after `reset_to_original`, every in-range cell of the working
grid (both `self.board` and the cell values) equals the original puzzle grid,
and every sketch annotation is zero; the original grid itself is untouched. -/
theorem claim_C6 (s : Board) (h1 : gridShape 9 s.cells_value)
    (h2 : gridShape 9 s.cells_sketched) (h3 : gridShape 9 s.board)
    (r c : Nat) (hr : r < 9) (hc : c < 9) :
    getCell (Board.reset_to_original s).board r c = getCell s.original_board r c ∧
    getCell (Board.reset_to_original s).cells_value r c = getCell s.original_board r c ∧
    getCell (Board.reset_to_original s).cells_sketched r c = 0 ∧
    (Board.reset_to_original s).original_board = s.original_board := by
  have hb : ∀ p ∈ Board.pairs9, p.1 < 9 ∧ p.2 < 9 := by
    intro p hp
    obtain ⟨a, b⟩ := p
    exact (mem_pairs9 a b).mp hp
  obtain ⟨g1, g2, g3, hin, hout⟩ := resetStep_foldl s.original_board Board.pairs9
    (s.cells_value, s.cells_sketched, s.board) hb h1 h2 h3
  have hmem : (r, c) ∈ Board.pairs9 := (mem_pairs9 r c).mpr ⟨hr, hc⟩
  have h := hin r c hmem
  have e1 : (Board.reset_to_original s).board =
      (Board.pairs9.foldl (Board.resetStep s.original_board)
        (s.cells_value, s.cells_sketched, s.board)).2.2 := by
    simp only [Board.reset_to_original, Board.clear_selection]
  have e2 : (Board.reset_to_original s).cells_value =
      (Board.pairs9.foldl (Board.resetStep s.original_board)
        (s.cells_value, s.cells_sketched, s.board)).1 := by
    simp only [Board.reset_to_original, Board.clear_selection]
  have e3 : (Board.reset_to_original s).cells_sketched =
      (Board.pairs9.foldl (Board.resetStep s.original_board)
        (s.cells_value, s.cells_sketched, s.board)).2.1 := by
    simp only [Board.reset_to_original, Board.clear_selection]
  have e4 : (Board.reset_to_original s).original_board = s.original_board := by
    simp only [Board.reset_to_original, Board.clear_selection]
  rw [e1, e2, e3, e4]
  exact ⟨h.2.2, h.1, h.2.1, rfl⟩

/-- Witness for C6 at the concrete session, cell (0, 0). -/
theorem claim_C6_witness :
    getCell (Board.reset_to_original sWit9).board 0 0 = getCell sWit9.original_board 0 0 ∧
    getCell (Board.reset_to_original sWit9).cells_value 0 0 = getCell sWit9.original_board 0 0 ∧
    getCell (Board.reset_to_original sWit9).cells_sketched 0 0 = 0 ∧
    (Board.reset_to_original sWit9).original_board = sWit9.original_board :=
  claim_C6 sWit9 (gridShape_zeroGrid 9) (gridShape_zeroGrid 9) (gridShape_zeroGrid 9)
    0 0 (by decide) (by decide)

/-- A size-4 generator whose board was mutated through the aliased list that
`get_board()` returns, so that cells (0,0) and (0,1) both hold 1 before
`fill_values()` runs: the resulting diagonal fill admits no completion, so the
root `fill_remaining` call genuinely fails. -/
def gPoisoned : SudokuGenerator :=
  { row_length := 4, removed_cells := 0, box_length := 2,
    board := [[1, 1, 0, 0], [0, 0, 0, 0], [0, 0, 0, 0], [0, 0, 0, 0]],
    solution := none, shuffles := [], picks := [] }

/-- The board `gPoisoned` holds right after `fill_diagonal` (shuffles exhausted,
so each box takes its unused values in order): the exhaustive backtracking
search restores exactly this board on failure. -/
def gPoisonedDiag : Grid :=
  [[1, 1, 0, 0], [2, 3, 0, 0], [0, 0, 1, 2], [0, 0, 3, 4]]

/-- Claim C3 (the slip, evaluated): starting `fill_values` on `gPoisoned`, the
root `fill_remaining(0, box_length)` call returns `False` after an exhaustive
search, yet `fill_values` signals nothing and records the partially-filled
board (cell (0,2) is still 0) as the solution. -/
theorem claim_C3 :
    (SudokuGenerator.fillGo 200 (SudokuGenerator.fill_diagonal gPoisoned) 0 2 none).map
        Prod.fst = some false ∧
    SudokuGenerator.fill_values 200 gPoisoned =
      some { gPoisoned with board := gPoisonedDiag, solution := some gPoisonedDiag } ∧
    getCell gPoisonedDiag 0 2 = 0 := by
  refine ⟨?_, ?_, ?_⟩ <;> decide

/-- Number of zero cells among the 81 in-range cells. -/
def countZeros9 (b : Grid) : Nat :=
  Board.pairs9.countP fun p => getCell b p.1 p.2 = 0

theorem countP_update :
    ∀ (l : List (Nat × Nat)), l.Nodup → ∀ (q : Nat × Nat), q ∈ l →
      ∀ (f f' : Nat × Nat → Bool), f q = false → f' q = true →
      (∀ p ∈ l, p ≠ q → f' p = f p) → l.countP f' = l.countP f + 1 := by
  intro l
  induction l with
  | nil =>
    intro _ q hq
    cases hq
  | cons a t ih =>
    intro hn q hq f f' hfq hfq' hsame
    rw [List.countP_cons, List.countP_cons]
    by_cases ha : a = q
    · subst ha
      rw [hfq, hfq']
      have hat : a ∉ t := (List.nodup_cons.mp hn).1
      have hsub : t.countP f' = t.countP f := by
        apply List.countP_congr
        intro p hp
        have := hsame p (List.mem_cons_of_mem _ hp) (fun he => hat (he ▸ hp))
        rw [this]
      rw [hsub]
      simp
    · have hq' : q ∈ t := by
        rcases List.mem_cons.mp hq with h | h
        · exact absurd h.symm ha
        · exact h
      have hfa : f' a = f a := hsame a (List.mem_cons_self _ _) ha
      rw [hfa]
      have := ih (List.nodup_cons.mp hn).2 q hq' f f' hfq hfq'
        (fun p hp hne => hsame p (List.mem_cons_of_mem _ hp) hne)
      omega

theorem pairs9_nodup : Board.pairs9.Nodup := by decide

theorem countZeros9_setZero (b : Grid) (r c : Nat) (hs : gridShape 9 b)
    (hr : r < 9) (hc : c < 9) (hnz : getCell b r c ≠ 0) :
    countZeros9 (setCell b r c 0) = countZeros9 b + 1 := by
  unfold countZeros9
  apply countP_update Board.pairs9 pairs9_nodup (r, c) ((mem_pairs9 r c).mpr ⟨hr, hc⟩)
  · exact decide_eq_false hnz
  · have := getCell_setCell_self b r c 0 hs hr hc
    exact decide_eq_true this
  · intro p hp hne
    obtain ⟨pr, pc⟩ := p
    have hne2 : ((r : Nat), (c : Nat)) ≠ (pr, pc) := fun he => hne (he.symm)
    have := getCell_pair_ne b r c pr pc 0 hne2
    simp only [this]

theorem countZeros9_eq_zero (b : Grid)
    (hfull : ∀ r c, r < 9 → c < 9 → getCell b r c ≠ 0) :
    countZeros9 b = 0 := by
  unfold countZeros9
  rw [List.countP_eq_zero]
  intro p hp
  obtain ⟨pr, pc⟩ := p
  have hb := (mem_pairs9 pr pc).mp hp
  simp only [decide_eq_true_eq]
  exact hfull pr pc hb.1 hb.2

theorem pickStep_lt (g : SudokuGenerator) (n : Nat) (hn : 0 < n) :
    (SudokuGenerator.pickStep g n).1 < n := by
  unfold SudokuGenerator.pickStep
  match g.picks with
  | [] => exact hn
  | p :: rest => exact Nat.mod_lt _ hn

theorem pickStep_board (g : SudokuGenerator) (n : Nat) :
    (SudokuGenerator.pickStep g n).2.board = g.board := by
  unfold SudokuGenerator.pickStep
  match g.picks with
  | [] => rfl
  | p :: rest => rfl

theorem pickStep_row_length (g : SudokuGenerator) (n : Nat) :
    (SudokuGenerator.pickStep g n).2.row_length = g.row_length := by
  unfold SudokuGenerator.pickStep
  match g.picks with
  | [] => rfl
  | p :: rest => rfl

theorem pickStep_removed_cells (g : SudokuGenerator) (n : Nat) :
    (SudokuGenerator.pickStep g n).2.removed_cells = g.removed_cells := by
  unfold SudokuGenerator.pickStep
  match g.picks with
  | [] => rfl
  | p :: rest => rfl

theorem removeGo_spec (b0 : Grid) :
    ∀ (fuel : Nat) (g : SudokuGenerator) (removed : Nat) (g' : SudokuGenerator),
      g.row_length = 9 → gridShape 9 g.board →
      removed ≤ g.removed_cells →
      countZeros9 g.board = removed →
      (∀ r c, r < 9 → c < 9 →
        getCell g.board r c = getCell b0 r c ∨ getCell g.board r c = 0) →
      SudokuGenerator.removeGo fuel g removed = some g' →
      countZeros9 g'.board = g.removed_cells ∧
      (∀ r c, r < 9 → c < 9 →
        getCell g'.board r c = getCell b0 r c ∨ getCell g'.board r c = 0) := by
  intro fuel
  induction fuel with
  | zero =>
    intro g removed g' hN hs hle hcount hinv h
    unfold SudokuGenerator.removeGo at h
    split at h
    · rename_i hguard
      injection h with h
      rw [← h]
      exact ⟨by omega, hinv⟩
    · cases h
  | succ fuel ih =>
    intro g removed g' hN hs hle hcount hinv h
    unfold SudokuGenerator.removeGo at h
    split at h
    · rename_i hguard
      injection h with h
      rw [← h]
      exact ⟨by omega, hinv⟩
    · rename_i hguard
      dsimp only at h
      set s1 := SudokuGenerator.pickStep g g.row_length with hs1
      set s2 := SudokuGenerator.pickStep s1.2 s1.2.row_length with hs2
      have hb2 : s2.2.board = g.board := by
        rw [hs2, pickStep_board, hs1, pickStep_board]
      have hN2 : s2.2.row_length = 9 := by
        rw [hs2, pickStep_row_length, hs1, pickStep_row_length, hN]
      have hK2 : s2.2.removed_cells = g.removed_cells := by
        rw [hs2, pickStep_removed_cells, hs1, pickStep_removed_cells]
      have hrlt : s1.1 < 9 := by
        rw [hs1]
        have h0 : 0 < g.row_length := by omega
        have := pickStep_lt g g.row_length h0
        omega
      have hmid : s1.2.row_length = 9 := by
        rw [hs1, pickStep_row_length, hN]
      have hclt : s2.1 < 9 := by
        rw [hs2]
        have h0 : 0 < s1.2.row_length := by omega
        have := pickStep_lt s1.2 s1.2.row_length h0
        omega
      have hs2shape : gridShape 9 s2.2.board := by
        rw [hb2]; exact hs
      split at h
      · rename_i hnz
        have hK2up : ({ s2.2 with board := setCell s2.2.board s1.1 s2.1 0 } :
            SudokuGenerator).removed_cells = g.removed_cells := hK2
        have hN2up : ({ s2.2 with board := setCell s2.2.board s1.1 s2.1 0 } :
            SudokuGenerator).row_length = 9 := hN2
        have hshape' : gridShape 9 (setCell s2.2.board s1.1 s2.1 0) :=
          gridShape_setCell _ _ _ _ hs2shape
        have hcount' : countZeros9 (setCell s2.2.board s1.1 s2.1 0) = removed + 1 := by
          rw [countZeros9_setZero s2.2.board s1.1 s2.1 hs2shape hrlt hclt hnz]
          rw [hb2, hcount]
        have hinv' : ∀ r c, r < 9 → c < 9 →
            getCell (setCell s2.2.board s1.1 s2.1 0) r c = getCell b0 r c ∨
            getCell (setCell s2.2.board s1.1 s2.1 0) r c = 0 := by
          intro r c hr hc
          by_cases he : ((s1.1 : Nat), (s2.1 : Nat)) = (r, c)
          · right
            have hr1 : s1.1 = r := congrArg Prod.fst he
            have hc1 : s2.1 = c := congrArg Prod.snd he
            rw [← hr1, ← hc1]
            exact getCell_setCell_self _ _ _ _ hs2shape hrlt hclt
          · rw [getCell_pair_ne _ _ _ _ _ _ he, hb2]
            exact hinv r c hr hc
        have hres := ih { s2.2 with board := setCell s2.2.board s1.1 s2.1 0 }
          (removed + 1) g' hN2up hshape' (by omega) hcount' hinv' h
        refine ⟨?_, hres.2⟩
        rw [hres.1]
        exact hK2up
      · rename_i hz
        have hres := ih s2.2 removed g' hN2 hs2shape (by omega)
          (by rw [hb2]; exact hcount) (by rw [hb2]; exact hinv) h
        refine ⟨?_, hres.2⟩
        rw [hres.1]
        exact hK2

/-- Claim C2: for a fully-filled 9x9 board whose recorded solution is the board
itself (the state `fill_values` leaves for `remove_cells`), any terminating
`remove_cells` run with removal count K ≤ 81 leaves exactly K zero cells, every
other cell equal to the corresponding cell of the recorded solution, and never
alters a value except by zeroing it; the recorded solution itself is unchanged. -/
theorem claim_C2 (fuel : Nat) (g g' : SudokuGenerator)
    (hN : g.row_length = 9) (hshape : gridShape 9 g.board)
    (hK : g.removed_cells ≤ 81)
    (hfull : ∀ r ∈ List.range 9, ∀ c ∈ List.range 9, getCell g.board r c ≠ 0)
    (hsol : g.solution = some g.board)
    (hrem : SudokuGenerator.remove_cells fuel g = some g') :
    countZeros9 g'.board = g.removed_cells ∧
    (∀ r c, r < 9 → c < 9 → getCell g'.board r c ≠ 0 →
      getCell g'.board r c = getCell g.board r c) ∧
    (∀ r c, r < 9 → c < 9 →
      getCell g'.board r c = getCell g.board r c ∨ getCell g'.board r c = 0) ∧
    g'.solution = some g.board := by
  have hfull' : ∀ r c, r < 9 → c < 9 → getCell g.board r c ≠ 0 := by
    intro r c hr hc
    exact hfull r (List.mem_range.mpr hr) c (List.mem_range.mpr hc)
  have h0 : countZeros9 g.board = 0 := countZeros9_eq_zero g.board hfull'
  have hres := removeGo_spec g.board fuel g 0 g' hN hshape (by omega) h0
    (fun r c _ _ => Or.inl rfl) hrem
  refine ⟨hres.1, ?_, hres.2, ?_⟩
  · intro r c hr hc hnz
    rcases hres.2 r c hr hc with h | h
    · exact h
    · exact absurd h hnz
  · rw [removeGo_solution fuel g 0 g' hrem, hsol]

/-- A full generator state about to run `remove_cells` with count 2. -/
def gRemW : SudokuGenerator :=
  { row_length := 9, removed_cells := 2, box_length := 3,
    board := SGrid, solution := some SGrid, shuffles := [], picks := [0, 1, 0, 2] }

/-- The state after that removal run: cells (0,1) and (0,2) zeroed. -/
def gRemWafter : SudokuGenerator :=
  { row_length := 9, removed_cells := 2, box_length := 3,
    board := [[1, 0, 0, 4, 5, 6, 7, 8, 9], [4, 5, 6, 7, 8, 9, 1, 2, 3],
              [7, 8, 9, 1, 2, 3, 4, 5, 6], [2, 3, 4, 5, 6, 7, 8, 9, 1],
              [5, 6, 7, 8, 9, 1, 2, 3, 4], [8, 9, 1, 2, 3, 4, 5, 6, 7],
              [3, 4, 5, 6, 7, 8, 9, 1, 2], [6, 7, 8, 9, 1, 2, 3, 4, 5],
              [9, 1, 2, 3, 4, 5, 6, 7, 8]],
    solution := some SGrid, shuffles := [], picks := [] }

/-- Witness for C2 at a concrete removal run. -/
theorem claim_C2_witness :
    SudokuGenerator.remove_cells 5 gRemW = some gRemWafter ∧
    (countZeros9 gRemWafter.board = gRemW.removed_cells ∧
     (∀ r c, r < 9 → c < 9 → getCell gRemWafter.board r c ≠ 0 →
       getCell gRemWafter.board r c = getCell gRemW.board r c) ∧
     (∀ r c, r < 9 → c < 9 →
       getCell gRemWafter.board r c = getCell gRemW.board r c ∨
       getCell gRemWafter.board r c = 0) ∧
     gRemWafter.solution = some gRemW.board) :=
  ⟨by decide,
   claim_C2 5 gRemW gRemWafter (by decide) (by decide) (by decide) (by decide)
     (by decide) (by decide)⟩

/-- Row-major position of a cell, for tracking `fill_remaining`'s traversal. -/
def pos10 (r c : Nat) : Nat := 10 * r + c

/-- The entry positions `(row, col)` at which `fill_remaining` is invoked when
started at `(0, 3)` on a 9x9 board: the initial call plus one entry after each
visited cell. -/
def EPairs : List (Nat × Nat) :=
  (0, 3) :: targetsList.map fun p => (p.1, p.2 + 1)

/-- Decidable bundle of facts about `adjust` at one entry position: either it
exits (and every non-diagonal cell lies strictly before the entry), or it
yields an in-range, non-diagonal target cell, at or after the entry, with no
non-diagonal cell strictly between, whose successor position is again an entry. -/
def adjOkB (p : Nat × Nat) : Bool :=
  match SudokuGenerator.adjust 9 3 p.1 p.2 with
  | none =>
    (List.range 9).all fun r => (List.range 9).all fun c =>
      (r / 3 == c / 3) || decide (pos10 r c < pos10 p.1 p.2)
  | some q =>
    decide (q.1 < 9) && decide (q.2 < 9) && !(q.1 / 3 == q.2 / 3) &&
    decide (pos10 p.1 p.2 ≤ pos10 q.1 q.2) &&
    decide ((q.1, q.2 + 1) ∈ EPairs) &&
    ((List.range 9).all fun r => (List.range 9).all fun c =>
      (r / 3 == c / 3) ||
        !(decide (pos10 p.1 p.2 ≤ pos10 r c) && decide (pos10 r c < pos10 q.1 q.2)))

set_option maxRecDepth 10000 in
theorem adjOk_all : ∀ p ∈ EPairs, adjOkB p = true := by decide

theorem adjust_none_facts (row col : Nat) (hmem : (row, col) ∈ EPairs)
    (hadj : SudokuGenerator.adjust 9 3 row col = none) :
    ∀ r c, r < 9 → c < 9 → ¬ (r / 3 = c / 3) → pos10 r c < pos10 row col := by
  have hok := adjOk_all (row, col) hmem
  unfold adjOkB at hok
  rw [hadj] at hok
  rw [List.all_eq_true] at hok
  intro r c hr hc hnd
  have h1 := hok r (List.mem_range.mpr hr)
  rw [List.all_eq_true] at h1
  have h2 := h1 c (List.mem_range.mpr hc)
  rw [Bool.or_eq_true] at h2
  rcases h2 with h2 | h2
  · exact absurd (by simpa using h2 : r / 3 = c / 3) hnd
  · exact of_decide_eq_true h2

theorem adjust_some_facts (row col : Nat) (q : Nat × Nat) (hmem : (row, col) ∈ EPairs)
    (hadj : SudokuGenerator.adjust 9 3 row col = some q) :
    q.1 < 9 ∧ q.2 < 9 ∧ ¬ (q.1 / 3 = q.2 / 3) ∧
    pos10 row col ≤ pos10 q.1 q.2 ∧ (q.1, q.2 + 1) ∈ EPairs ∧
    (∀ r c, r < 9 → c < 9 → ¬ (r / 3 = c / 3) →
      ¬ (pos10 row col ≤ pos10 r c ∧ pos10 r c < pos10 q.1 q.2)) := by
  have hok := adjOk_all (row, col) hmem
  unfold adjOkB at hok
  rw [hadj] at hok
  rw [Bool.and_eq_true, Bool.and_eq_true, Bool.and_eq_true, Bool.and_eq_true,
    Bool.and_eq_true] at hok
  obtain ⟨⟨⟨⟨⟨ha, hb⟩, hc⟩, hd⟩, he⟩, hf⟩ := hok
  refine ⟨of_decide_eq_true ha, of_decide_eq_true hb, ?_, of_decide_eq_true hd,
    of_decide_eq_true he, ?_⟩
  · intro hdd
    simp [hdd] at hc
  · intro r c hr hc2 hnd hbetween
    rw [List.all_eq_true] at hf
    have h1 := hf r (List.mem_range.mpr hr)
    rw [List.all_eq_true] at h1
    have h2 := h1 c (List.mem_range.mpr hc2)
    rw [Bool.or_eq_true] at h2
    rcases h2 with h2 | h2
    · exact absurd (by simpa using h2 : r / 3 = c / 3) hnd
    · have hb1 : pos10 row col ≤ pos10 r c := hbetween.1
      have hb2 : pos10 r c < pos10 q.1 q.2 := hbetween.2
      simp [hb1, hb2] at h2

/-- The fill-phase invariant: all values at most 9, and no duplicated nonzero
value within any row, column, or 3x3 box. -/
def boardInv (b : Grid) : Prop :=
  (∀ r c, r < 9 → c < 9 → getCell b r c ≤ 9) ∧
  (∀ r c₁ c₂, r < 9 → c₁ < 9 → c₂ < 9 → c₁ ≠ c₂ → getCell b r c₁ ≠ 0 →
    getCell b r c₁ ≠ getCell b r c₂) ∧
  (∀ c r₁ r₂, c < 9 → r₁ < 9 → r₂ < 9 → r₁ ≠ r₂ → getCell b r₁ c ≠ 0 →
    getCell b r₁ c ≠ getCell b r₂ c) ∧
  (∀ br bc r₁ c₁ r₂ c₂, br < 3 → bc < 3 → r₁ < 3 → c₁ < 3 → r₂ < 3 → c₂ < 3 →
    (r₁, c₁) ≠ (r₂, c₂) → getCell b (3 * br + r₁) (3 * bc + c₁) ≠ 0 →
    getCell b (3 * br + r₁) (3 * bc + c₁) ≠ getCell b (3 * br + r₂) (3 * bc + c₂))

theorem getCell_mem_getD {n : Nat} (b : Grid) (hs : gridShape n b) {r c : Nat}
    (hr : r < n) (hc : c < n) :
    getCell b r c ∈ List.getD b r [] := by
  obtain ⟨hlen, hrow⟩ := hs
  have hrb : r < List.length b := by omega
  have hD : List.getD b r [] = b[r] := by
    rw [getD_as_getElem, List.getElem?_eq_getElem hrb]; rfl
  have hcl : c < List.length b[r] := by
    rw [hrow _ (List.getElem_mem hrb)]; omega
  rw [hD]
  unfold getCell
  rw [hD, getD_nat_as_getElem, List.getElem?_eq_getElem hcl]
  exact List.getElem_mem hcl

theorem is_valid_sem (g : SudokuGenerator) (r c v : Nat)
    (hR : g.row_length = 9) (hB : g.box_length = 3) (hs : gridShape 9 g.board)
    (hr : r < 9) (hc : c < 9)
    (hv : SudokuGenerator.is_valid g r c v = true) :
    (∀ c', c' < 9 → getCell g.board r c' ≠ v) ∧
    (∀ r', r' < 9 → getCell g.board r' c ≠ v) ∧
    (∀ dr dc, dr < 3 → dc < 3 →
      getCell g.board (3 * (r / 3) + dr) (3 * (c / 3) + dc) ≠ v) := by
  unfold SudokuGenerator.is_valid at hv
  rw [Bool.and_eq_true, Bool.and_eq_true] at hv
  obtain ⟨⟨h1, h2⟩, h3⟩ := hv
  refine ⟨?_, ?_, ?_⟩
  · unfold SudokuGenerator.valid_in_row at h1
    rw [Bool.not_eq_true'] at h1
    intro c' hc' he
    have hmem : v ∈ List.getD g.board r [] := by
      rw [← he]
      exact getCell_mem_getD g.board hs hr hc'
    have hcon : (List.getD g.board r []).contains v = true := by
      rw [List.contains_iff_exists_mem_beq]
      exact ⟨v, hmem, by simp⟩
    rw [h1] at hcon
    exact Bool.false_ne_true hcon
  · unfold SudokuGenerator.valid_in_col at h2
    rw [hR, List.all_eq_true] at h2
    intro r' hr' he
    have h4 := h2 r' (List.mem_range.mpr hr')
    exact (of_decide_eq_true h4) he
  · unfold SudokuGenerator.valid_in_box at h3
    rw [hB, List.all_eq_true] at h3
    intro dr dc hdr hdc he
    have h4 := h3 dr (List.mem_range.mpr hdr)
    rw [List.all_eq_true] at h4
    have h5 := of_decide_eq_true (h4 dc (List.mem_range.mpr hdc))
    have e1 : r - r % 3 = 3 * (r / 3) := by omega
    have e2 : c - c % 3 = 3 * (c / 3) := by omega
    rw [e1, e2] at h5
    exact h5 he

theorem boardInv_setCell_zero (b : Grid) (r c : Nat) (hs : gridShape 9 b)
    (hr : r < 9) (hc : c < 9) (hinv : boardInv b) :
    boardInv (setCell b r c 0) := by
  obtain ⟨hbd, hrow, hcol, hbox⟩ := hinv
  have hget : ∀ x y, getCell (setCell b r c 0) x y =
      if r = x ∧ c = y then 0 else getCell b x y := by
    intro x y
    by_cases he : r = x ∧ c = y
    · obtain ⟨h1, h2⟩ := he
      subst h1
      subst h2
      rw [if_pos ⟨rfl, rfl⟩]
      exact getCell_setCell_self b r c 0 hs hr hc
    · rw [if_neg he]
      apply getCell_setCell_ne
      by_cases h1 : r = x
      · right
        intro h2
        exact he ⟨h1, h2⟩
      · left
        exact h1
  refine ⟨?_, ?_, ?_, ?_⟩
  · intro x y hx hy
    rw [hget]
    split
    · omega
    · exact hbd x y hx hy
  · intro x c₁ c₂ hx h1 h2 hne hnz
    simp only [hget] at hnz ⊢
    split_ifs at hnz ⊢ with ha hb hb
    · exact absurd rfl hnz
    · exact absurd rfl hnz
    · exact hnz
    · exact hrow x c₁ c₂ hx h1 h2 hne hnz
  · intro y r₁ r₂ hy h1 h2 hne hnz
    simp only [hget] at hnz ⊢
    split_ifs at hnz ⊢ with ha hb hb
    · exact absurd rfl hnz
    · exact absurd rfl hnz
    · exact hnz
    · exact hcol y r₁ r₂ hy h1 h2 hne hnz
  · intro bx by2 r₁ c₁ r₂ c₂ hbx hby hr1 hc1 hr2 hc2 hne hnz
    simp only [hget] at hnz ⊢
    split_ifs at hnz ⊢ with ha hb hb
    · exact absurd rfl hnz
    · exact absurd rfl hnz
    · exact hnz
    · exact hbox bx by2 r₁ c₁ r₂ c₂ hbx hby hr1 hc1 hr2 hc2 hne hnz

theorem boardInv_setCell_valid (b : Grid) (r c v : Nat) (hs : gridShape 9 b)
    (hr : r < 9) (hc : c < 9) (hv1 : 1 ≤ v) (hv9 : v ≤ 9)
    (hrowv : ∀ c', c' < 9 → getCell b r c' ≠ v)
    (hcolv : ∀ r', r' < 9 → getCell b r' c ≠ v)
    (hboxv : ∀ dr dc, dr < 3 → dc < 3 →
      getCell b (3 * (r / 3) + dr) (3 * (c / 3) + dc) ≠ v)
    (hinv : boardInv b) :
    boardInv (setCell b r c v) := by
  obtain ⟨hbd, hrow, hcol, hbox⟩ := hinv
  have hget : ∀ x y, getCell (setCell b r c v) x y =
      if r = x ∧ c = y then v else getCell b x y := by
    intro x y
    by_cases he : r = x ∧ c = y
    · obtain ⟨h1, h2⟩ := he
      subst h1
      subst h2
      rw [if_pos ⟨rfl, rfl⟩]
      exact getCell_setCell_self b r c v hs hr hc
    · rw [if_neg he]
      apply getCell_setCell_ne
      by_cases h1 : r = x
      · right
        intro h2
        exact he ⟨h1, h2⟩
      · left
        exact h1
  refine ⟨?_, ?_, ?_, ?_⟩
  · intro x y hx hy
    rw [hget]
    split
    · omega
    · exact hbd x y hx hy
  · intro x c₁ c₂ hx h1 h2 hne hnz
    simp only [hget] at hnz ⊢
    split_ifs at hnz ⊢ with ha hb hb
    · omega
    · obtain ⟨hax, hac⟩ := ha
      subst hax
      subst hac
      exact fun he => (hrowv c₂ h2) he.symm
    · obtain ⟨hbx, hbc⟩ := hb
      subst hbx
      subst hbc
      exact hrowv c₁ h1
    · exact hrow x c₁ c₂ hx h1 h2 hne hnz
  · intro y r₁ r₂ hy h1 h2 hne hnz
    simp only [hget] at hnz ⊢
    split_ifs at hnz ⊢ with ha hb hb
    · omega
    · obtain ⟨hax, hac⟩ := ha
      subst hax
      subst hac
      exact fun he => (hcolv r₂ h2) he.symm
    · obtain ⟨hbx, hbc⟩ := hb
      subst hbx
      subst hbc
      exact hcolv r₁ h1
    · exact hcol y r₁ r₂ hy h1 h2 hne hnz
  · intro bx by2 r₁ c₁ r₂ c₂ hbx hby hr1 hc1 hr2 hc2 hne hnz
    simp only [hget] at hnz ⊢
    split_ifs at hnz ⊢ with ha hb hb
    · have e1 : r₁ = r₂ := by omega
      have e2 : c₁ = c₂ := by omega
      subst e1
      subst e2
      exact absurd rfl hne
    · have e1 : bx = r / 3 := by omega
      have e2 : by2 = c / 3 := by omega
      subst e1
      subst e2
      exact fun he => (hboxv r₂ c₂ hr2 hc2) he.symm
    · have e1 : bx = r / 3 := by omega
      have e2 : by2 = c / 3 := by omega
      subst e1
      subst e2
      exact hboxv r₁ c₁ hr1 hc1
    · exact hbox bx by2 r₁ c₁ r₂ c₂ hbx hby hr1 hc1 hr2 hc2 hne hnz

theorem fillGo_spec :
    ∀ (fuel : Nat) (g : SudokuGenerator) (row col : Nat) (mode : Option (List Nat))
      (flag : Bool) (g' : SudokuGenerator),
      g.row_length = 9 → g.box_length = 3 →
      gridShape 9 g.board → boardInv g.board →
      (match mode with
       | none => (row, col) ∈ EPairs
       | some nums =>
         row < 9 ∧ col < 9 ∧ ¬ (row / 3 = col / 3) ∧ (row, col + 1) ∈ EPairs ∧
         ∀ v ∈ nums, 1 ≤ v ∧ v ≤ 9) →
      SudokuGenerator.fillGo fuel g row col mode = some (flag, g') →
      g'.row_length = 9 ∧ g'.box_length = 3 ∧ gridShape 9 g'.board ∧ boardInv g'.board ∧
      (∀ r c, r < 9 → c < 9 → r / 3 = c / 3 →
        getCell g'.board r c = getCell g.board r c) ∧
      (∀ r c, r < 9 → c < 9 → pos10 r c < pos10 row col →
        getCell g'.board r c = getCell g.board r c) ∧
      (flag = true → ∀ r c, r < 9 → c < 9 → ¬ (r / 3 = c / 3) →
        pos10 row col ≤ pos10 r c → getCell g'.board r c ≠ 0) := by
  intro fuel
  induction fuel with
  | zero =>
    intro g row col mode flag g' _ _ _ _ _ h
    exact Option.noConfusion (show (none : Option (Bool × SudokuGenerator)) =
      some (flag, g') from h)
  | succ fuel ih =>
    intro g row col mode flag g' hR hB hshape hinv hcond h
    cases mode with
    | none =>
      unfold SudokuGenerator.fillGo at h
      rw [hR, hB] at h
      cases hadj : SudokuGenerator.adjust 9 3 row col with
      | none =>
        rw [hadj] at h
        dsimp only at h
        have h2 : ((true : Bool), g) = (flag, g') := Option.some.inj h
        have hflag : flag = true := (congrArg Prod.fst h2).symm
        have hg : g' = g := (congrArg Prod.snd h2).symm
        subst hg
        refine ⟨hR, hB, hshape, hinv, fun _ _ _ _ _ => rfl, fun _ _ _ _ _ => rfl, ?_⟩
        intro _ r c hr hc hnd hge
        have := adjust_none_facts row col hcond hadj r c hr hc hnd
        omega
      | some q =>
        rw [hadj] at h
        obtain ⟨qr, qc⟩ := q
        dsimp only at h
        have hfacts := adjust_some_facts row col (qr, qc) hcond hadj
        dsimp only at hfacts
        have hsb : (SudokuGenerator.shuffleStep g (List.range' 1 9)).2.board = g.board :=
          SudokuGenerator.shuffleStep_board g _
        have hsf := SudokuGenerator.shuffleStep_fields g (List.range' 1 9)
        have hperm : List.Perm (SudokuGenerator.shuffleStep g (List.range' 1 9)).1
            (List.range' 1 9) := SudokuGenerator.shuffleStep_perm g _
        have hvals : ∀ v ∈ (SudokuGenerator.shuffleStep g (List.range' 1 9)).1,
            1 ≤ v ∧ v ≤ 9 := by
          intro v hv
          have hv2 := hperm.mem_iff.mp hv
          rw [List.mem_range'_1] at hv2
          omega
        have hres := ih (SudokuGenerator.shuffleStep g (List.range' 1 9)).2 qr qc
          (some (SudokuGenerator.shuffleStep g (List.range' 1 9)).1) flag g'
          (by rw [hsf.1, hR]) (by rw [hsf.2.1, hB])
          (by rw [hsb]; exact hshape) (by rw [hsb]; exact hinv)
          ⟨hfacts.1, hfacts.2.1, hfacts.2.2.1, hfacts.2.2.2.2.1, hvals⟩ h
        obtain ⟨hr1, hb1, hsh1, hin1, hdiag1, hearly1, hcov1⟩ := hres
        refine ⟨hr1, hb1, hsh1, hin1, ?_, ?_, ?_⟩
        · intro r c hr hc hd
          rw [hdiag1 r c hr hc hd, hsb]
        · intro r c hr hc hlt
          have hle := hfacts.2.2.2.1
          have : pos10 r c < pos10 qr qc := by omega
          rw [hearly1 r c hr hc this, hsb]
        · intro hf r c hr hc hnd hge
          by_cases hcase : pos10 qr qc ≤ pos10 r c
          · exact hcov1 hf r c hr hc hnd hcase
          · exact absurd ⟨hge, by omega⟩ (hfacts.2.2.2.2.2 r c hr hc hnd)
    | some nums =>
      cases nums with
      | nil =>
        have h2 : ((false : Bool), g) = (flag, g') := Option.some.inj h
        have hflag : flag = false := (congrArg Prod.fst h2).symm
        have hg : g' = g := (congrArg Prod.snd h2).symm
        subst hg
        refine ⟨hR, hB, hshape, hinv, fun _ _ _ _ _ => rfl, fun _ _ _ _ _ => rfl, ?_⟩
        intro hf
        rw [hflag] at hf
        exact absurd hf Bool.false_ne_true
      | cons num rest =>
        obtain ⟨hrow9, hcol9, hnd, hmemE, hvals⟩ := hcond
        unfold SudokuGenerator.fillGo at h
        by_cases hv : SudokuGenerator.is_valid g row col num = true
        · rw [if_pos hv] at h
          have hsem := is_valid_sem g row col num hR hB hshape hrow9 hcol9 hv
          have hnum := hvals num (List.mem_cons_self _ _)
          have hinv' : boardInv (setCell g.board row col num) :=
            boardInv_setCell_valid g.board row col num hshape hrow9 hcol9
              hnum.1 hnum.2 hsem.1 hsem.2.1 hsem.2.2 hinv
          have hshape' : gridShape 9 (setCell g.board row col num) :=
            gridShape_setCell _ _ _ _ hshape
          have hne_of_diag : ∀ r c, r / 3 = c / 3 →
              ((row : Nat), (col : Nat)) ≠ (r, c) := by
            intro r c hd he
            apply hnd
            have e1 : row = r := congrArg Prod.fst he
            have e2 : col = c := congrArg Prod.snd he
            rw [e1, e2]
            exact hd
          have hne_of_pos : ∀ r c, pos10 r c ≠ pos10 row col →
              ((row : Nat), (col : Nat)) ≠ (r, c) := by
            intro r c hp he
            apply hp
            have e1 : row = r := congrArg Prod.fst he
            have e2 : col = c := congrArg Prod.snd he
            rw [e1, e2]
          cases hchild : SudokuGenerator.fillGo fuel
              { g with board := setCell g.board row col num } row (col + 1) none with
          | none =>
            rw [hchild] at h
            cases h
          | some p =>
            obtain ⟨cf, g2⟩ := p
            rw [hchild] at h
            have hchildres := ih { g with board := setCell g.board row col num } row
              (col + 1) none cf g2 hR hB hshape' hinv' hmemE hchild
            obtain ⟨hr2, hb2, hsh2, hin2, hdiag2, hearly2, hcov2⟩ := hchildres
            cases cf with
            | true =>
              dsimp only at h
              have h2 : ((true : Bool), g2) = (flag, g') := Option.some.inj h
              have hflag : flag = true := (congrArg Prod.fst h2).symm
              have hg : g' = g2 := (congrArg Prod.snd h2).symm
              subst hg
              refine ⟨hr2, hb2, hsh2, hin2, ?_, ?_, ?_⟩
              · intro r c hr hc hd
                rw [hdiag2 r c hr hc hd]
                exact getCell_pair_ne _ _ _ _ _ _ (hne_of_diag r c hd)
              · intro r c hr hc hlt
                have hlt2 : pos10 r c < pos10 row (col + 1) := by
                  unfold pos10 at *
                  omega
                rw [hearly2 r c hr hc hlt2]
                exact getCell_pair_ne _ _ _ _ _ _ (hne_of_pos r c (by omega))
              · intro _ r c hr hc hnd2 hge
                by_cases heq : pos10 r c = pos10 row col
                · have hrr : r = row := by
                    unfold pos10 at heq
                    omega
                  have hcc : c = col := by
                    unfold pos10 at heq
                    omega
                  subst hrr
                  subst hcc
                  have hlt2 : pos10 r c < pos10 r (c + 1) := by
                    unfold pos10
                    omega
                  rw [hearly2 r c hr hc hlt2]
                  rw [getCell_setCell_self g.board r c num hshape hr hc]
                  omega
                · have hge2 : pos10 row (col + 1) ≤ pos10 r c := by
                    unfold pos10 at *
                    omega
                  exact hcov2 rfl r c hr hc hnd2 hge2
            | false =>
              dsimp only at h
              have hsh3 : gridShape 9 (setCell g2.board row col 0) :=
                gridShape_setCell _ _ _ _ hsh2
              have hin3 : boardInv (setCell g2.board row col 0) :=
                boardInv_setCell_zero g2.board row col hsh2 hrow9 hcol9 hin2
              have hrest := ih { g2 with board := setCell g2.board row col 0 } row col
                (some rest) flag g' hr2 hb2 hsh3 hin3
                ⟨hrow9, hcol9, hnd, hmemE, fun v hv2 => hvals v (List.mem_cons_of_mem _ hv2)⟩ h
              obtain ⟨hr4, hb4, hsh4, hin4, hdiag4, hearly4, hcov4⟩ := hrest
              refine ⟨hr4, hb4, hsh4, hin4, ?_, ?_, ?_⟩
              · intro r c hr hc hd
                rw [hdiag4 r c hr hc hd]
                rw [getCell_pair_ne _ _ _ _ _ _ (hne_of_diag r c hd)]
                rw [hdiag2 r c hr hc hd]
                exact getCell_pair_ne _ _ _ _ _ _ (hne_of_diag r c hd)
              · intro r c hr hc hlt
                rw [hearly4 r c hr hc hlt]
                rw [getCell_pair_ne _ _ _ _ _ _ (hne_of_pos r c (by omega))]
                have hlt2 : pos10 r c < pos10 row (col + 1) := by
                  unfold pos10 at *
                  omega
                rw [hearly2 r c hr hc hlt2]
                exact getCell_pair_ne _ _ _ _ _ _ (hne_of_pos r c (by omega))
              · intro hf r c hr hc hnd2 hge
                exact hcov4 hf r c hr hc hnd2 hge
        · rw [if_neg hv] at h
          exact ih g row col (some rest) flag g' hR hB hshape hinv
            ⟨hrow9, hcol9, hnd, hmemE, fun v hv2 => hvals v (List.mem_cons_of_mem _ hv2)⟩ h

theorem fill_fold_spec (vs : List Nat) :
    ∀ (cells : List (Nat × Nat)) (b : Grid) (idx : Nat),
      gridShape 9 b → (∀ p ∈ cells, p.1 < 9 ∧ p.2 < 9) → cells.Nodup →
      (∀ p ∈ cells, getCell b p.1 p.2 = 0) →
      gridShape 9 (cells.foldl (SudokuGenerator.fillBoxStep vs) (b, idx)).1 ∧
      (∀ r c, ¬ (r, c) ∈ cells →
        getCell (cells.foldl (SudokuGenerator.fillBoxStep vs) (b, idx)).1 r c =
          getCell b r c) ∧
      (∀ k, k < cells.length →
        getCell (cells.foldl (SudokuGenerator.fillBoxStep vs) (b, idx)).1
            (cells.getD k (0, 0)).1 (cells.getD k (0, 0)).2 =
          List.getD vs (idx + k) 0) := by
  intro cells
  induction cells with
  | nil =>
    intro b idx hs _ _ _
    refine ⟨hs, fun _ _ _ => rfl, ?_⟩
    intro k hk
    cases hk
  | cons q rest ih =>
    intro b idx hs hb hnd hz
    obtain ⟨qr, qc⟩ := q
    have hq := hb (qr, qc) (List.mem_cons_self _ _)
    have hz0 : getCell b qr qc = 0 := hz _ (List.mem_cons_self _ _)
    have hstep : SudokuGenerator.fillBoxStep vs (b, idx) (qr, qc) =
        (setCell b qr qc (List.getD vs idx 0), idx + 1) := by
      unfold SudokuGenerator.fillBoxStep
      rw [if_pos hz0]
    rw [List.foldl_cons, hstep]
    have hs' : gridShape 9 (setCell b qr qc (List.getD vs idx 0)) :=
      gridShape_setCell _ _ _ _ hs
    have hb' : ∀ p ∈ rest, p.1 < 9 ∧ p.2 < 9 :=
      fun p hp => hb p (List.mem_cons_of_mem _ hp)
    have hqrest : (qr, qc) ∉ rest := (List.nodup_cons.mp hnd).1
    have hnd' := (List.nodup_cons.mp hnd).2
    have hz' : ∀ p ∈ rest, getCell (setCell b qr qc (List.getD vs idx 0)) p.1 p.2 = 0 := by
      intro p hp
      obtain ⟨pr, pc⟩ := p
      rw [getCell_pair_ne b qr qc pr pc _ (fun he => hqrest (by rw [he]; exact hp))]
      exact hz _ (List.mem_cons_of_mem _ hp)
    obtain ⟨ih1, ih2, ih3⟩ := ih (setCell b qr qc (List.getD vs idx 0)) (idx + 1)
      hs' hb' hnd' hz'
    refine ⟨ih1, ?_, ?_⟩
    · intro r c hmem
      have hrest : ¬ (r, c) ∈ rest := fun hh => hmem (List.mem_cons_of_mem _ hh)
      rw [ih2 r c hrest]
      exact getCell_pair_ne _ _ _ _ _ _
        (fun he => hmem (by rw [← he]; exact List.mem_cons_self _ _))
    · intro k hk
      cases k with
      | zero =>
        rw [List.getD_cons_zero]
        rw [ih2 qr qc hqrest]
        rw [getCell_setCell_self b qr qc _ hs hq.1 hq.2, Nat.add_zero]
      | succ k2 =>
        rw [List.getD_cons_succ]
        have hk2 : k2 < rest.length := by
          rw [List.length_cons] at hk
          omega
        rw [ih3 k2 hk2, show idx + 1 + k2 = idx + (k2 + 1) from by omega]

/-- The 9 box offsets in row-major order. -/
def pairs33 : List (Nat × Nat) :=
  [(0, 0), (0, 1), (0, 2), (1, 0), (1, 1), (1, 2), (2, 0), (2, 1), (2, 2)]

theorem unused_in_box_of_zero (g : SudokuGenerator) (a : Nat)
    (hR : g.row_length = 9) (hB : g.box_length = 3)
    (hzero : ∀ dr dc, dr < 3 → dc < 3 → getCell g.board (a + dr) (a + dc) = 0) :
    SudokuGenerator.unused_in_box g a a = List.range' 1 9 := by
  unfold SudokuGenerator.unused_in_box
  rw [hR, hB]
  dsimp only
  have hused : (List.filter (fun v => v ≠ 0) (List.flatten ((List.range 3).map fun r =>
      (List.range 3).map fun c => getCell g.board (a + r) (a + c)))) = [] := by
    rw [List.filter_eq_nil_iff]
    intro v hv
    rw [List.mem_flatten] at hv
    obtain ⟨l, hl, hvl⟩ := hv
    rw [List.mem_map] at hl
    obtain ⟨r, hr, rfl⟩ := hl
    rw [List.mem_map] at hvl
    obtain ⟨c, hc, rfl⟩ := hvl
    have := hzero r c (List.mem_range.mp hr) (List.mem_range.mp hc)
    simp [this]
  rw [hused]
  simp


set_option maxHeartbeats 1600000 in
theorem fill_box_spec (g : SudokuGenerator) (a : Nat)
    (hR : g.row_length = 9) (hB : g.box_length = 3)
    (hshape : gridShape 9 g.board) (ha : a = 0 ∨ a = 3 ∨ a = 6)
    (hzero : ∀ dr dc, dr < 3 → dc < 3 → getCell g.board (a + dr) (a + dc) = 0) :
    (SudokuGenerator.fill_box g a a).row_length = 9 ∧
    (SudokuGenerator.fill_box g a a).box_length = 3 ∧
    (SudokuGenerator.fill_box g a a).solution = g.solution ∧
    gridShape 9 (SudokuGenerator.fill_box g a a).board ∧
    (∀ r c, ¬ (a ≤ r ∧ r < a + 3 ∧ a ≤ c ∧ c < a + 3) →
      getCell (SudokuGenerator.fill_box g a a).board r c = getCell g.board r c) ∧
    (∃ vs : List Nat, List.Perm vs (List.range' 1 9) ∧
      ∀ dr dc, dr < 3 → dc < 3 →
        getCell (SudokuGenerator.fill_box g a a).board (a + dr) (a + dc) =
          List.getD vs (3 * dr + dc) 0) := by
  have hsf := SudokuGenerator.shuffleStep_fields g (SudokuGenerator.unused_in_box g a a)
  have hsb := SudokuGenerator.shuffleStep_board g (SudokuGenerator.unused_in_box g a a)
  have hb3 : (SudokuGenerator.shuffleStep g
      (SudokuGenerator.unused_in_box g a a)).2.box_length = 3 := by
    rw [hsf.2.1, hB]
  unfold SudokuGenerator.fill_box
  dsimp only
  rw [hb3, hsb]
  rw [show (List.flatten ((List.range 3).map fun r => (List.range 3).map
      fun c => ((a + r : Nat), (a + c : Nat)))) =
    pairs33.map (fun q => (a + q.1, a + q.2)) from rfl]
  have hvperm : List.Perm
      (SudokuGenerator.shuffleStep g (SudokuGenerator.unused_in_box g a a)).1
      (List.range' 1 9) := by
    have h1 := SudokuGenerator.shuffleStep_perm g (SudokuGenerator.unused_in_box g a a)
    have hu := unused_in_box_of_zero g a hR hB hzero
    exact h1.trans (by rw [hu])
  have hq33 : ∀ q ∈ pairs33, q.1 < 3 ∧ q.2 < 3 := by decide
  have hbounds : ∀ p ∈ pairs33.map (fun q => ((a + q.1 : Nat), (a + q.2 : Nat))),
      p.1 < 9 ∧ p.2 < 9 := by
    intro p hp
    rw [List.mem_map] at hp
    obtain ⟨q, hq, rfl⟩ := hp
    have hq3 := hq33 q hq
    have ha6 : a ≤ 6 := by rcases ha with h | h | h <;> omega
    constructor <;> (dsimp only; omega)
  have hnodup : (pairs33.map (fun q => ((a + q.1 : Nat), (a + q.2 : Nat)))).Nodup := by
    apply List.Nodup.map_on
    · intro x hx y hy hxy
      have h1 : a + x.1 = a + y.1 := congrArg Prod.fst hxy
      have h2 : a + x.2 = a + y.2 := congrArg Prod.snd hxy
      obtain ⟨x1, x2⟩ := x
      obtain ⟨y1, y2⟩ := y
      simp only at h1 h2
      have e1 : x1 = y1 := by omega
      have e2 : x2 = y2 := by omega
      rw [e1, e2]
    · decide
  have hz' : ∀ p ∈ pairs33.map (fun q => ((a + q.1 : Nat), (a + q.2 : Nat))),
      getCell g.board p.1 p.2 = 0 := by
    intro p hp
    rw [List.mem_map] at hp
    obtain ⟨q, hq, rfl⟩ := hp
    have hq3 := hq33 q hq
    exact hzero q.1 q.2 hq3.1 hq3.2
  obtain ⟨hfs, hff, hfg⟩ := fill_fold_spec
    (SudokuGenerator.shuffleStep g (SudokuGenerator.unused_in_box g a a)).1
    (pairs33.map (fun q => ((a + q.1 : Nat), (a + q.2 : Nat)))) g.board 0
    hshape hbounds hnodup hz'
  refine ⟨hsf.1.trans hR, rfl, hsf.2.2.2, hfs, ?_, ?_⟩
  · intro r c hout
    apply hff
    intro hmem
    rw [List.mem_map] at hmem
    obtain ⟨q, hq, he⟩ := hmem
    have hq3 := hq33 q hq
    have h1 : a + q.1 = r := congrArg Prod.fst he
    have h2 : a + q.2 = c := congrArg Prod.snd he
    exact hout (by omega)
  · refine ⟨(SudokuGenerator.shuffleStep g (SudokuGenerator.unused_in_box g a a)).1,
      hvperm, ?_⟩
    intro dr dc hdr hdc
    have hlen : (pairs33.map (fun q => ((a + q.1 : Nat), (a + q.2 : Nat)))).length = 9 := by
      simp [pairs33]
    have hklt : 3 * dr + dc < pairs33.length := by
      simp only [pairs33, List.length_cons, List.length_nil]
      omega
    have hgd : (pairs33.map (fun q => ((a + q.1 : Nat), (a + q.2 : Nat)))).getD
        (3 * dr + dc) (0, 0) = (a + dr, a + dc) := by
      rw [List.getD_eq_getElem?_getD, List.getElem?_eq_getElem (by rw [hlen]; omega)]
      rw [List.getElem_map]
      interval_cases dr <;> interval_cases dc <;> rfl
    have hval := hfg (3 * dr + dc) (by rw [hlen]; omega)
    rw [hgd] at hval
    rw [Nat.zero_add] at hval
    exact hval

theorem perm_getD_ne (vs : List Nat) (hp : List.Perm vs (List.range' 1 9)) :
    ∀ i j, i < 9 → j < 9 → i ≠ j → List.getD vs i 0 ≠ List.getD vs j 0 := by
  have hlen : vs.length = 9 := by
    rw [hp.length_eq, List.length_range']
  have hnd : vs.Nodup := (hp.nodup_iff).mpr (List.nodup_range' 1 9)
  intro i j hi hj hne
  have hi2 : i < vs.length := by omega
  have hj2 : j < vs.length := by omega
  have hgi : List.getD vs i 0 = vs.get ⟨i, hi2⟩ := by
    rw [List.getD_eq_getElem?_getD, List.getElem?_eq_getElem hi2]
    rfl
  have hgj : List.getD vs j 0 = vs.get ⟨j, hj2⟩ := by
    rw [List.getD_eq_getElem?_getD, List.getElem?_eq_getElem hj2]
    rfl
  rw [hgi, hgj, List.get_eq_getElem, List.get_eq_getElem]
  intro he
  exact hne ((hnd.getElem_inj_iff).mp he)

theorem perm_getD_bounds (vs : List Nat) (hp : List.Perm vs (List.range' 1 9)) :
    ∀ i, i < 9 → 1 ≤ List.getD vs i 0 ∧ List.getD vs i 0 ≤ 9 := by
  have hlen : vs.length = 9 := by
    rw [hp.length_eq, List.length_range']
  intro i hi
  have hi2 : i < vs.length := by omega
  have hgi : List.getD vs i 0 = vs.get ⟨i, hi2⟩ := by
    rw [List.getD_eq_getElem?_getD, List.getElem?_eq_getElem hi2]
    rfl
  rw [hgi]
  have hmem : vs.get ⟨i, hi2⟩ ∈ vs := by
    rw [List.get_eq_getElem]
    exact List.getElem_mem _
  have := hp.mem_iff.mp hmem
  rw [List.mem_range'_1] at this
  omega

theorem fill_diagonal_fresh (k : Nat) (ss : List (List Nat)) (ps : List Nat) :
    (SudokuGenerator.fill_diagonal (SudokuGenerator.init 9 k ss ps)).row_length = 9 ∧
    (SudokuGenerator.fill_diagonal (SudokuGenerator.init 9 k ss ps)).box_length = 3 ∧
    gridShape 9 (SudokuGenerator.fill_diagonal (SudokuGenerator.init 9 k ss ps)).board ∧
    boardInv (SudokuGenerator.fill_diagonal (SudokuGenerator.init 9 k ss ps)).board ∧
    (∀ r c, r < 9 → c < 9 → r / 3 = c / 3 →
      getCell (SudokuGenerator.fill_diagonal (SudokuGenerator.init 9 k ss ps)).board r c ≠ 0) := by
  have hd : SudokuGenerator.fill_diagonal (SudokuGenerator.init 9 k ss ps) =
      SudokuGenerator.fill_box (SudokuGenerator.fill_box
        (SudokuGenerator.fill_box (SudokuGenerator.init 9 k ss ps) 0 0) 3 3) 6 6 := by
    unfold SudokuGenerator.fill_diagonal
    rw [show (SudokuGenerator.init 9 k ss ps).row_length = 9 from rfl,
      show (SudokuGenerator.init 9 k ss ps).box_length = 3 from rfl,
      show SudokuGenerator.diagStarts 9 3 = [0, 3, 6] from rfl]
    rfl
  rw [hd]
  have hz0 : ∀ dr dc : Nat, dr < 3 → dc < 3 →
      getCell (SudokuGenerator.init 9 k ss ps).board (0 + dr) (0 + dc) = 0 := by
    intro dr dc _ _
    exact getCell_zeroGrid 9 _ _
  obtain ⟨hR1, hB1, _, hsh1, hfr1, vs1, hp1, hv1⟩ :=
    fill_box_spec (SudokuGenerator.init 9 k ss ps) 0 rfl rfl
      (gridShape_zeroGrid 9) (Or.inl rfl) hz0
  have hz3 : ∀ dr dc : Nat, dr < 3 → dc < 3 →
      getCell (SudokuGenerator.fill_box (SudokuGenerator.init 9 k ss ps) 0 0).board
        (3 + dr) (3 + dc) = 0 := by
    intro dr dc h1 h2
    rw [hfr1 (3 + dr) (3 + dc) (by omega)]
    exact getCell_zeroGrid 9 _ _
  obtain ⟨hR2, hB2, _, hsh2, hfr2, vs2, hp2, hv2⟩ :=
    fill_box_spec (SudokuGenerator.fill_box (SudokuGenerator.init 9 k ss ps) 0 0) 3
      hR1 hB1 hsh1 (Or.inr (Or.inl rfl)) hz3
  have hz6 : ∀ dr dc : Nat, dr < 3 → dc < 3 →
      getCell (SudokuGenerator.fill_box (SudokuGenerator.fill_box
        (SudokuGenerator.init 9 k ss ps) 0 0) 3 3).board (6 + dr) (6 + dc) = 0 := by
    intro dr dc h1 h2
    rw [hfr2 (6 + dr) (6 + dc) (by omega), hfr1 (6 + dr) (6 + dc) (by omega)]
    exact getCell_zeroGrid 9 _ _
  obtain ⟨hR3, hB3, _, hsh3, hfr3, vs3, hp3, hv3⟩ :=
    fill_box_spec (SudokuGenerator.fill_box (SudokuGenerator.fill_box
      (SudokuGenerator.init 9 k ss ps) 0 0) 3 3) 6 hR2 hB2 hsh2 (Or.inr (Or.inr rfl)) hz6
  set b3 := SudokuGenerator.fill_box (SudokuGenerator.fill_box
    (SudokuGenerator.fill_box (SudokuGenerator.init 9 k ss ps) 0 0) 3 3) 6 6 with hb3def
  have P1 : ∀ dr dc : Nat, dr < 3 → dc < 3 →
      getCell b3.board (0 + dr) (0 + dc) = List.getD vs1 (3 * dr + dc) 0 := by
    intro dr dc h1 h2
    rw [hfr3 (0 + dr) (0 + dc) (by omega), hfr2 (0 + dr) (0 + dc) (by omega)]
    exact hv1 dr dc h1 h2
  have P2 : ∀ dr dc : Nat, dr < 3 → dc < 3 →
      getCell b3.board (3 + dr) (3 + dc) = List.getD vs2 (3 * dr + dc) 0 := by
    intro dr dc h1 h2
    rw [hfr3 (3 + dr) (3 + dc) (by omega)]
    exact hv2 dr dc h1 h2
  have P3 : ∀ dr dc : Nat, dr < 3 → dc < 3 →
      getCell b3.board (6 + dr) (6 + dc) = List.getD vs3 (3 * dr + dc) 0 := hv3
  have Z : ∀ r c, r < 9 → c < 9 → ¬ (r / 3 = c / 3) → getCell b3.board r c = 0 := by
    intro r c hr hc hnd
    rw [hfr3 r c (by omega), hfr2 r c (by omega), hfr1 r c (by omega)]
    exact getCell_zeroGrid 9 _ _
  have hval : ∀ r c, r < 9 → c < 9 → r / 3 = c / 3 →
      1 ≤ getCell b3.board r c ∧ getCell b3.board r c ≤ 9 := by
    intro r c hr hc hd3
    have h03 : r / 3 = 0 ∨ r / 3 = 1 ∨ r / 3 = 2 := by omega
    rcases h03 with h03 | h03 | h03
    · rw [show r = 0 + r % 3 from by omega, show c = 0 + c % 3 from by omega,
        P1 (r % 3) (c % 3) (by omega) (by omega)]
      exact perm_getD_bounds vs1 hp1 _ (by omega)
    · rw [show r = 3 + r % 3 from by omega, show c = 3 + c % 3 from by omega,
        P2 (r % 3) (c % 3) (by omega) (by omega)]
      exact perm_getD_bounds vs2 hp2 _ (by omega)
    · rw [show r = 6 + r % 3 from by omega, show c = 6 + c % 3 from by omega,
        P3 (r % 3) (c % 3) (by omega) (by omega)]
      exact perm_getD_bounds vs3 hp3 _ (by omega)
  have key : ∀ r₁ c₁ r₂ c₂, r₁ < 9 → c₁ < 9 → r₂ < 9 → c₂ < 9 →
      r₁ / 3 = c₁ / 3 → r₂ / 3 = c₂ / 3 → r₁ / 3 = r₂ / 3 →
      ¬ (r₁ = r₂ ∧ c₁ = c₂) →
      getCell b3.board r₁ c₁ ≠ getCell b3.board r₂ c₂ := by
    intro r₁ c₁ r₂ c₂ h1 h2 h3 h4 hd1 hd2 hbox hne
    have hidx : 3 * (r₁ % 3) + c₁ % 3 ≠ 3 * (r₂ % 3) + c₂ % 3 := by omega
    have h03 : r₁ / 3 = 0 ∨ r₁ / 3 = 1 ∨ r₁ / 3 = 2 := by omega
    rcases h03 with h03 | h03 | h03
    · rw [show r₁ = 0 + r₁ % 3 from by omega, show c₁ = 0 + c₁ % 3 from by omega,
        show r₂ = 0 + r₂ % 3 from by omega, show c₂ = 0 + c₂ % 3 from by omega,
        P1 (r₁ % 3) (c₁ % 3) (by omega) (by omega),
        P1 (r₂ % 3) (c₂ % 3) (by omega) (by omega)]
      exact perm_getD_ne vs1 hp1 _ _ (by omega) (by omega) hidx
    · rw [show r₁ = 3 + r₁ % 3 from by omega, show c₁ = 3 + c₁ % 3 from by omega,
        show r₂ = 3 + r₂ % 3 from by omega, show c₂ = 3 + c₂ % 3 from by omega,
        P2 (r₁ % 3) (c₁ % 3) (by omega) (by omega),
        P2 (r₂ % 3) (c₂ % 3) (by omega) (by omega)]
      exact perm_getD_ne vs2 hp2 _ _ (by omega) (by omega) hidx
    · rw [show r₁ = 6 + r₁ % 3 from by omega, show c₁ = 6 + c₁ % 3 from by omega,
        show r₂ = 6 + r₂ % 3 from by omega, show c₂ = 6 + c₂ % 3 from by omega,
        P3 (r₁ % 3) (c₁ % 3) (by omega) (by omega),
        P3 (r₂ % 3) (c₂ % 3) (by omega) (by omega)]
      exact perm_getD_ne vs3 hp3 _ _ (by omega) (by omega) hidx
  refine ⟨hR3, hB3, hsh3, ⟨?_, ?_, ?_, ?_⟩, ?_⟩
  · intro r c hr hc
    by_cases hd3 : r / 3 = c / 3
    · exact (hval r c hr hc hd3).2
    · rw [Z r c hr hc hd3]
      omega
  · intro r c₁ c₂ hr h1 h2 hne hnz
    by_cases hz2 : getCell b3.board r c₂ = 0
    · rw [hz2]
      exact hnz
    · have hd1 : r / 3 = c₁ / 3 := by
        by_contra hq
        exact hnz (Z r c₁ hr h1 hq)
      have hd2 : r / 3 = c₂ / 3 := by
        by_contra hq
        exact hz2 (Z r c₂ hr h2 hq)
      exact key r c₁ r c₂ hr h1 hr h2 hd1 hd2 rfl (fun hh => hne hh.2)
  · intro c r₁ r₂ hc h1 h2 hne hnz
    by_cases hz2 : getCell b3.board r₂ c = 0
    · rw [hz2]
      exact hnz
    · have hd1 : r₁ / 3 = c / 3 := by
        by_contra hq
        exact hnz (Z r₁ c h1 hc hq)
      have hd2 : r₂ / 3 = c / 3 := by
        by_contra hq
        exact hz2 (Z r₂ c h2 hc hq)
      exact key r₁ c r₂ c h1 hc h2 hc hd1 hd2 (by omega) (fun hh => hne hh.1)
  · intro bx by2 r₁ c₁ r₂ c₂ hbx hby h1 h2 h3 h4 hne hnz
    by_cases hz2 : getCell b3.board (3 * bx + r₂) (3 * by2 + c₂) = 0
    · rw [hz2]
      exact hnz
    · have hd1 : (3 * bx + r₁) / 3 = (3 * by2 + c₁) / 3 := by
        by_contra hq
        exact hnz (Z _ _ (by omega) (by omega) hq)
      have hd2 : (3 * bx + r₂) / 3 = (3 * by2 + c₂) / 3 := by
        by_contra hq
        exact hz2 (Z _ _ (by omega) (by omega) hq)
      apply key _ _ _ _ (by omega) (by omega) (by omega) (by omega) hd1 hd2 (by omega)
      intro hh
      obtain ⟨hh1, hh2⟩ := hh
      apply hne
      have e1 : r₁ = r₂ := by omega
      have e2 : c₁ = c₂ := by omega
      rw [e1, e2]
  · intro r c hr hc hd3
    have := (hval r c hr hc hd3).1
    omega

/-- The 9 values of row `r` (in-range reads). -/
def rowListOf (b : Grid) (r : Nat) : List Nat :=
  (List.range 9).map fun c => getCell b r c

/-- The 9 values of column `c`. -/
def colListOf (b : Grid) (c : Nat) : List Nat :=
  (List.range 9).map fun r => getCell b r c

/-- The 9 values of the box with box-coordinates `(br, bc)`. -/
def boxListOf (b : Grid) (br bc : Nat) : List Nat :=
  pairs33.map fun q => getCell b (3 * br + q.1) (3 * bc + q.2)

/-- Every row, column and 3x3 box contains each value 1..9 exactly once. -/
def exactlyOnceAll (b : Grid) : Prop :=
  ∀ v, 1 ≤ v → v ≤ 9 →
    (∀ r, r < 9 → (rowListOf b r).count v = 1) ∧
    (∀ c, c < 9 → (colListOf b c).count v = 1) ∧
    (∀ br bc, br < 3 → bc < 3 → (boxListOf b br bc).count v = 1)

theorem count_one_of_nodup_subset (l : List Nat) (hn : l.Nodup)
    (hsub : l ⊆ List.range' 1 9) (hlen : l.length = 9) :
    ∀ v, 1 ≤ v → v ≤ 9 → l.count v = 1 := by
  have hsp : l.Subperm (List.range' 1 9) := hn.subperm hsub
  have hperm : List.Perm l (List.range' 1 9) :=
    hsp.perm_of_length_le (by rw [hlen, List.length_range'])
  intro v h1 h9
  rw [hperm.count_eq]
  apply List.count_eq_one_of_mem (List.nodup_range' 1 9)
  rw [List.mem_range'_1]
  omega

theorem pairs33_bounds : ∀ q ∈ pairs33, q.1 < 3 ∧ q.2 < 3 := by decide

theorem exactlyOnceAll_of (b : Grid) (hinv : boardInv b)
    (hfull : ∀ r c, r < 9 → c < 9 → getCell b r c ≠ 0) :
    exactlyOnceAll b := by
  obtain ⟨hbd, hrow, hcol, hbox⟩ := hinv
  intro v h1 h9
  refine ⟨?_, ?_, ?_⟩
  · intro r hr
    refine count_one_of_nodup_subset _ ?_ ?_ ?_ v h1 h9
    · refine List.Nodup.map_on ?_ (List.nodup_range 9)
      intro c₁ hc₁ c₂ hc₂ he
      rw [List.mem_range] at hc₁ hc₂
      by_contra hne
      exact hrow r c₁ c₂ hr hc₁ hc₂ hne (hfull r c₁ hr hc₁) he
    · intro x hx
      rw [rowListOf, List.mem_map] at hx
      obtain ⟨c, hc, rfl⟩ := hx
      rw [List.mem_range] at hc
      rw [List.mem_range'_1]
      have hb2 := hbd r c hr hc
      have hf2 := hfull r c hr hc
      omega
    · simp [rowListOf]
  · intro c hc
    refine count_one_of_nodup_subset _ ?_ ?_ ?_ v h1 h9
    · refine List.Nodup.map_on ?_ (List.nodup_range 9)
      intro r₁ hr₁ r₂ hr₂ he
      rw [List.mem_range] at hr₁ hr₂
      by_contra hne
      exact hcol c r₁ r₂ hc hr₁ hr₂ hne (hfull r₁ c hr₁ hc) he
    · intro x hx
      rw [colListOf, List.mem_map] at hx
      obtain ⟨r, hr, rfl⟩ := hx
      rw [List.mem_range] at hr
      rw [List.mem_range'_1]
      have hb2 := hbd r c hr hc
      have hf2 := hfull r c hr hc
      omega
    · simp [colListOf]
  · intro br bc hbr hbc
    refine count_one_of_nodup_subset _ ?_ ?_ ?_ v h1 h9
    · refine List.Nodup.map_on ?_ (by decide : pairs33.Nodup)
      intro q₁ hq₁ q₂ hq₂ he
      have hb₁ := pairs33_bounds q₁ hq₁
      have hb₂ := pairs33_bounds q₂ hq₂
      by_contra hne
      refine hbox br bc q₁.1 q₁.2 q₂.1 q₂.2 hbr hbc hb₁.1 hb₁.2 hb₂.1 hb₂.2 ?_
        (hfull _ _ (by omega) (by omega)) he
      intro hh
      apply hne
      calc q₁ = (q₁.1, q₁.2) := rfl
        _ = (q₂.1, q₂.2) := hh
        _ = q₂ := rfl
    · intro x hx
      rw [boxListOf, List.mem_map] at hx
      obtain ⟨q, hq, rfl⟩ := hx
      have hb2 := pairs33_bounds q hq
      rw [List.mem_range'_1]
      have hb3 := hbd (3 * br + q.1) (3 * bc + q.2) (by omega) (by omega)
      have hf2 := hfull (3 * br + q.1) (3 * bc + q.2) (by omega) (by omega)
      omega
    · simp [boxListOf, pairs33]

/-- Claim C1: whenever the backtracking fill launched by `fill_values` on a
fresh 9x9 generator (diagonal pre-fill followed by `fill_remaining(0, 3)`)
succeeds, `fill_values` records that board as the solution, and the recorded
solution is complete with every row, column and 3x3 box containing each of
1..9 exactly once — for every shuffle/pick stream, i.e. for every run. -/
theorem claim_C1 (fuel k : Nat) (ss : List (List Nat)) (ps : List Nat)
    (g2 : SudokuGenerator)
    (hrun : SudokuGenerator.fillGo fuel
        (SudokuGenerator.fill_diagonal (SudokuGenerator.init 9 k ss ps)) 0 3 none =
      some (true, g2)) :
    SudokuGenerator.fill_values fuel (SudokuGenerator.init 9 k ss ps) =
      some { g2 with solution := some g2.board } ∧
    (∀ r c, r < 9 → c < 9 → getCell g2.board r c ≠ 0) ∧
    exactlyOnceAll g2.board := by
  obtain ⟨hR1, hB1, hsh1, hinv1, hdiag1⟩ := fill_diagonal_fresh k ss ps
  have hmem : ((0 : Nat), (3 : Nat)) ∈ EPairs := by decide
  obtain ⟨hr2, hb2, hsh2, hinv2, hdiagf, hearly, hcov⟩ :=
    fillGo_spec fuel (SudokuGenerator.fill_diagonal (SudokuGenerator.init 9 k ss ps))
      0 3 none true g2 hR1 hB1 hsh1 hinv1 hmem hrun
  have hfull : ∀ r c, r < 9 → c < 9 → getCell g2.board r c ≠ 0 := by
    intro r c hr hc
    by_cases hd3 : r / 3 = c / 3
    · rw [hdiagf r c hr hc hd3]
      exact hdiag1 r c hr hc hd3
    · apply hcov rfl r c hr hc hd3
      unfold pos10
      by_contra hlt
      push_neg at hlt
      apply hd3
      omega
  refine ⟨?_, hfull, exactlyOnceAll_of g2.board hinv2 hfull⟩
  unfold SudokuGenerator.fill_values
  dsimp only
  rw [hB1, hrun]

set_option maxRecDepth 1000000 in
/-- Witness for C1: a concrete stream reproducing `SGrid`, on which the
backtracking fill succeeds without ever backtracking. -/
theorem claim_C1_witness :
    SudokuGenerator.fill_values 200 (SudokuGenerator.init 9 40 wStream []) =
      some { wGenFinal with solution := some wGenFinal.board } ∧
    (∀ r c, r < 9 → c < 9 → getCell wGenFinal.board r c ≠ 0) ∧
    exactlyOnceAll wGenFinal.board :=
  claim_C1 200 40 wStream [] wGenFinal (by decide)
